import Mathlib

/-!
# PRISM agentic-RAG orchestrator: verification of the spec claims

Shallow embedding of the core orchestration state machine of the PRISM
course-assistant (src/core/state.py, src/core/graph.py, src/core/agent.py,
src/core/nodes/*.py, src/retrieval/retriever.py).

External collaborators (the completion service, the embedding service, the
vector index and the web search provider) are stateless request/response
functions; every call the Python code makes to one of them is modelled by an
oracle value/function supplied as an explicit argument, covering both the
success outcome and the caught-exception outcome where the code
distinguishes them. Python floats are modelled by rationals; Python strings
by Lean strings restricted to the ASCII behaviour the code exercises.
-/

namespace Prism

/-! ## Python string primitives

The source manipulates strings with `in` (substring test), `startswith`,
`lower`, `strip`, `split` and slicing.  These are modelled on the character
lists underlying Lean strings.  Python whitespace for `strip`/`\s` is the
six ASCII whitespace characters. -/

/-- The apostrophe character, used to build the source's literal texts. -/
def apos : String := String.mk [Char.ofNat 39]

/-- Python whitespace class: space, tab, newline, CR, vertical tab, form feed. -/
def isPySpace (c : Char) : Bool :=
  c = ' ' || c = Char.ofNat 9 || c = Char.ofNat 10 || c = Char.ofNat 13 ||
  c = Char.ofNat 11 || c = Char.ofNat 12

/-- ASCII decimal digit (Python `\d` on the ASCII inputs exercised). -/
def isDigitC (c : Char) : Bool := 48 ≤ c.toNat && c.toNat ≤ 57

/-- ASCII lower-case letter (the regex class `[a-z]`). -/
def isLowerAl (c : Char) : Bool := 97 ≤ c.toNat && c.toNat ≤ 122

/-- ASCII lowering of one character (Python `str.lower` on ASCII). -/
def lowerChar (c : Char) : Char :=
  if 65 ≤ c.toNat && c.toNat ≤ 90 then Char.ofNat (c.toNat + 32) else c

/-- Python `s.lower()` (ASCII). -/
def pyLower (s : String) : String := String.mk (s.data.map lowerChar)

/-- Drop trailing elements satisfying `p`. -/
def dropTrailing (p : Char → Bool) (l : List Char) : List Char :=
  (l.reverse.dropWhile p).reverse

/-- Python `s.strip()`: remove leading and trailing whitespace. -/
def pyStrip (s : String) : String :=
  String.mk (dropTrailing isPySpace (s.data.dropWhile isPySpace))

/-- Contiguous-sublist test on character lists. -/
def listInfix (needle : List Char) : List Char → Bool
  | [] => needle.isPrefixOf []
  | c :: rest => needle.isPrefixOf (c :: rest) || listInfix needle rest

/-- Python `needle in hay` for strings: contiguous-substring test. -/
def pyIn (needle hay : String) : Bool := listInfix needle.data hay.data

/-- Python `hay.startswith(p)` / an anchored `re.search(r'^...')`. -/
def pyPrefix (p hay : String) : Bool := p.data.isPrefixOf hay.data

/-- Python `s.split()` (split on whitespace runs, dropping empty pieces):
auxiliary walk carrying the word built so far (in reverse). -/
def pySplitAux : List Char → List Char → List String
  | [], acc => if acc = [] then [] else [String.mk acc.reverse]
  | c :: cs, acc =>
    if isPySpace c then
      if acc = [] then pySplitAux cs []
      else String.mk acc.reverse :: pySplitAux cs []
    else pySplitAux cs (c :: acc)

/-- Python `s.split()`. -/
def pySplit (s : String) : List String := pySplitAux s.data []

/-- Python `sep.join(parts)`. -/
def joinSep (sep : String) : List String → String
  | [] => ""
  | [x] => x
  | x :: y :: xs => x ++ sep ++ joinSep sep (y :: xs)

/-- Python truthiness of an optional string (`None` and `""` are falsy). -/
def optStrTruthy : Option String → Bool
  | none => false
  | some s => s ≠ ""

/-- Python truthiness of an optional number (`None` and `0` are falsy). -/
def optNatTruthy : Option Nat → Bool
  | none => false
  | some n => n ≠ 0

/-! ## Tiny matcher for the fixed regular expressions

The source uses `re.search` with a handful of fixed patterns made of
literals, `\s+`, `\d+` and `[a-z]+`.  At the boundaries occurring in those
patterns the character classes are disjoint, so greedy matching is exact. -/

/-- One atom of the fixed patterns. -/
inductive Tok where
  | lit (s : String)
  | ws
  | digits
  | lowers
deriving DecidableEq

/-- Match a token sequence at the head of `cs` (greedy `+` classes). -/
def matchToks : List Tok → List Char → Bool
  | [], _ => true
  | Tok.lit s :: ts, cs =>
    s.data.isPrefixOf cs && matchToks ts (cs.drop s.data.length)
  | Tok.ws :: ts, cs =>
    let cs' := cs.dropWhile isPySpace
    decide (cs'.length < cs.length) && matchToks ts cs'
  | Tok.digits :: ts, cs =>
    let cs' := cs.dropWhile isDigitC
    decide (cs'.length < cs.length) && matchToks ts cs'
  | Tok.lowers :: ts, cs =>
    let cs' := cs.dropWhile isLowerAl
    decide (cs'.length < cs.length) && matchToks ts cs'

/-- Model of `re.search`: try to match at every position. -/
def searchToks (ts : List Tok) : List Char → Bool
  | [] => matchToks ts []
  | c :: rest => matchToks ts (c :: rest) || searchToks ts rest

/-! ## Data model (src/core/state.py)

`AgentState` is the TypedDict threaded through every LangGraph node.  In
every execution the dict holds all of its keys (both initialisation paths
set them, and the LangGraph checkpoint preserves them), so it is modelled
as a structure.  Message `content` payloads of the diagnostic `a2a_messages`
log are not read anywhere; only sender/receiver/type are kept. -/

/-- Role tag of a conversation message (`HumanMessage` / `AIMessage`). -/
inductive Role where
  | human
  | ai
deriving DecidableEq

/-- One role-tagged conversation turn. -/
structure Message where
  role : Role
  content : String
deriving DecidableEq

/-- A citation produced by `CourseRetriever.get_citations` (course) or by
the web-search provider.  `page`/`timestamp` are the optional keys of the
Python dict. -/
structure Citation where
  document : String := ""
  module : Option String := none
  page : Option Nat := none
  timestamp : Option String := none
deriving DecidableEq

/-- A retrieved course chunk as returned by `CourseRetriever.retrieve`. -/
structure Chunk where
  content : String := ""
  document_name : String := ""
  module_name : Option String := none
  page_number : Option Nat := none
  timestamp : Option String := none
  score : ℚ := 0
deriving DecidableEq

/-- A web-search source entry (the `citations` of the search provider);
`url` is the key the evaluation engine reads. -/
structure WebCitation where
  source : String := ""
  url : String := ""
deriving DecidableEq

/-- One entry of the diagnostic inter-agent log (`A2AMessage.to_dict`);
the content/metadata/timestamp payloads are write-only diagnostics and are
not modelled. -/
structure A2AMsg where
  sender : String
  receiver : String
  mtype : String
deriving DecidableEq

/-- User context dict: the keys read by the pipeline. -/
structure UserContext where
  degree : String := "N/A"
  major : String := "N/A"
deriving DecidableEq

/-- The `AgentState` TypedDict of src/core/state.py. -/
structure AgentState where
  messages : List Message
  query : String
  refined_query : Option String
  is_vague : Bool
  follow_up_questions : List String
  is_relevant : Bool
  relevance_reason : Option String
  course_content_found : Bool
  course_context : Option String
  course_citations : List Citation
  retrieved_chunks : Option (List Chunk)
  web_search_results : Option String
  web_search_citations : List WebCitation
  user_context : UserContext
  course_name : String
  current_node : String
  next_node : Option String
  should_continue : Bool
  final_response : Option String
  response_citations : List Citation
  evaluation_scores : Option (List (String × ℚ))
  evaluation_passed : Bool
  refinement_attempts : Nat
  response_history : List (String × ℚ)
  a2a_messages : List A2AMsg
deriving DecidableEq

/-- One entry of the `conversation_history` argument of
`create_initial_state` (a `{role, content}` dict). -/
structure HistMsg where
  role : String
  content : String
deriving DecidableEq

/-- Conversion step of `create_initial_state`: translation of the history dicts to messages:
empty contents are skipped, only the roles "user" and "assistant" are kept. -/
def historyToMessages (h : List HistMsg) : List Message :=
  h.filterMap fun m =>
    if m.content = "" then none
    else if m.role = "user" then some ⟨Role.human, m.content⟩
    else if m.role = "assistant" then some ⟨Role.ai, m.content⟩
    else none

/-- Embedding of `create_initial_state` (src/core/state.py, lines 57-107). -/
def create_initial_state (query course_name : String) (user_context : UserContext)
    (conversation_history : List HistMsg) : AgentState where
  messages :=
    historyToMessages conversation_history ++
      (if query ≠ "" then [⟨Role.human, query⟩] else [])
  query := query
  refined_query := none
  is_vague := false
  follow_up_questions := []
  is_relevant := false
  relevance_reason := none
  course_content_found := false
  course_context := none
  course_citations := []
  retrieved_chunks := none
  web_search_results := none
  web_search_citations := []
  user_context := user_context
  course_name := course_name
  current_node := "start"
  next_node := none
  should_continue := true
  final_response := none
  response_citations := []
  evaluation_scores := none
  evaluation_passed := false
  refinement_attempts := 0
  response_history := []
  a2a_messages := []

/-- The state assembled by `PRISMAgent.process_query` for a follow-up turn
on a thread with persisted state (src/core/agent.py, lines 87-111).  The
dict built there is applied by `graph.invoke` as a per-key update of the
checkpointed state: keys present in the dict replace the checkpoint value,
keys absent from it (`retrieved_chunks`, `response_history`) keep the value
persisted from the previous turn. -/
def mergedTurnState (prev : AgentState) (query course_name : String)
    (user_context : UserContext) : AgentState :=
  { prev with
    messages := prev.messages ++ [⟨Role.human, query⟩]
    query := query
    refined_query := none
    is_vague := false
    follow_up_questions := []
    is_relevant := false
    relevance_reason := none
    course_content_found := false
    course_context := none
    course_citations := []
    web_search_results := none
    web_search_citations := []
    user_context := user_context
    course_name := course_name
    current_node := "start"
    next_node := none
    should_continue := true
    final_response := none
    response_citations := []
    evaluation_scores := none
    evaluation_passed := false
    refinement_attempts := 0
    a2a_messages := prev.a2a_messages }

/-- Embedding of `A2AManager.send_message` as it acts on the state: append the message
dict, then truncate the state's log to its last 100 entries. -/
def a2aSend (sender receiver mtype : String) (s : AgentState) : AgentState :=
  let msgs := s.a2a_messages ++ [⟨sender, receiver, mtype⟩]
  { s with a2a_messages :=
      if msgs.length > 100 then msgs.drop (msgs.length - 100) else msgs }

/-! ## Query refinement stage (src/core/nodes/query_refinement.py)

`QueryRefinementAgent.check_vagueness` is one completion-service call whose
parsed JSON is `{is_vague, follow_up_questions}`; any error in the call or
in parsing is caught and yields `{is_vague: false, follow_up_questions: []}`
(fail open).  The node receives that result as the oracle value below and
then layers the deterministic overrides on top of it. -/

/-- Parsed result of the vagueness classification call (on error the agent
returns `⟨false, []⟩`). -/
structure VagueResult where
  is_vague : Bool
  follow_up_questions : List String
deriving DecidableEq

/-- Truncation of one history message for the classification prompt
(`content[:500] + "..."` when longer than 500 chars). -/
def truncate500 (c : String) : String :=
  if c.length > 500 then String.mk (c.data.take 500) ++ "..." else c

/-- One line of the formatted conversation history. -/
def historyLineQR (m : Message) : String :=
  (if m.role = Role.human then "User: " else "Assistant: ") ++ truncate500 m.content

/-- The conversation-history string built by `query_refinement_node`:
last 15 messages, current query excluded, 500-char truncation, or the
placeholder when nothing remains. -/
def convHistoryQR (messages : List Message) : String :=
  let recent :=
    if messages.length > 15 then messages.drop (messages.length - 15) else messages
  let parts := recent.dropLast.map historyLineQR
  if parts = [] then "No previous conversation" else joinSep "\n" parts

/-- The fixed greeting list. -/
def greetings : List String :=
  ["hello", "hi", "hey", "greetings", "good morning", "good afternoon",
   "good evening", "how are you", "what" ++ apos ++ "s up"]

/-- The greeting heuristic: Python `any(greeting in query_lower ...)`,
a substring test against the lowercased stripped query. -/
def is_greeting (query_lower : String) : Bool :=
  greetings.any fun g => pyIn g query_lower

/-- Leading words of the first direct-question regex (each followed by
`\s+`). -/
def directQuestionWords : List String :=
  ["what", "how", "why", "when", "where", "who", "which", "can", "could",
   "would", "should", "is", "are", "was", "were", "do", "does", "did"]

/-- Anchored prefixes of the second direct-question regex. -/
def directQuestionStarts : List String :=
  ["explain", "tell me", "describe", "define", "show me", "give me",
   "help me", "i want", "i need", "i" ++ apos ++ "m looking for"]

/-- Anchored prefixes of the third direct-question regex. -/
def directQuestionStarts2 : List String :=
  ["what is", "what are", "how does", "how do", "why is", "why are",
   "when is", "when are", "where is", "where are"]

/-- Anchored pattern `^word\s+`: the word at the start, followed by at least one whitespace. -/
def startsWordWS (q w : String) : Bool :=
  w.data.isPrefixOf q.data &&
    (match q.data.drop w.data.length with
     | c :: _ => isPySpace c
     | [] => false)

/-- The direct-question heuristic (the three anchored regexes). -/
def is_direct_question (query_lower : String) : Bool :=
  directQuestionWords.any (startsWordWS query_lower) ||
  directQuestionStarts.any (fun p => pyPrefix p query_lower) ||
  directQuestionStarts2.any (fun p => pyPrefix p query_lower)

/-- The eight module-query patterns of `query_refinement_node`. -/
def modulePatterns : List (List Tok) :=
  [[Tok.lit "module", Tok.ws, Tok.digits],
   [Tok.lit "module", Tok.ws, Tok.lowers],
   [Tok.lit "explain", Tok.ws, Tok.lit "module"],
   [Tok.lit "what", Tok.ws, Tok.lit "is", Tok.ws, Tok.lit "in", Tok.ws, Tok.lit "module"],
   [Tok.lit "tell", Tok.ws, Tok.lit "me", Tok.ws, Tok.lit "about", Tok.ws, Tok.lit "module"],
   [Tok.lit "describe", Tok.ws, Tok.lit "module"],
   [Tok.lit "module", Tok.ws, Tok.digits, Tok.ws, Tok.lit "content"],
   [Tok.lit "module", Tok.ws, Tok.digits, Tok.ws, Tok.lit "topics"]]

/-- The module-query heuristic. -/
def is_module_query (query_lower : String) : Bool :=
  modulePatterns.any fun p => searchToks p query_lower.data

/-- Question-indicator words for the short-query override. -/
def questionIndicators : List String :=
  ["what", "how", "why", "when", "where", "who", "which", "explain",
   "tell", "describe", "define", "help"]

/-- Anaphoric reference words. -/
def referenceWords : List String :=
  ["the paper", "the document", "it", "they", "this", "that", "these",
   "those", "the authors", "the agents", "the figures", "the tables"]

/-- The deterministic override chain `query_refinement_node` layers on the
model verdict (src/core/nodes/query_refinement.py, lines 233-294): each
override can only force "not vague", never the reverse. -/
def qrOverrides (current_query conversation_history : String)
    (model : VagueResult) : VagueResult :=
  let query_lower := pyStrip (pyLower current_query)
  let result := model
  -- greeting / direct-question / module overrides
  let result :=
    if is_greeting query_lower || is_direct_question query_lower ||
        is_module_query query_lower then
      (⟨false, []⟩ : VagueResult)
    else result
  -- short query containing a question indicator
  let result :=
    if result.is_vague && decide ((pyStrip current_query).length < 50) &&
        questionIndicators.any (fun w => pyIn w query_lower) then
      (⟨false, []⟩ : VagueResult)
    else result
  -- anaphoric reference with a plausible referent in the history
  let uses_reference := referenceWords.any fun w => pyIn w query_lower
  if result.is_vague && uses_reference && conversation_history ≠ "" &&
      conversation_history ≠ "No previous conversation" then
    let history_lower := pyLower conversation_history
    let has_paper_mention :=
      ["paper", "document", "neuroquest", "article"].any fun t =>
        pyIn t history_lower
    let has_author_mention :=
      pyIn "author" history_lower || pyIn "written by" history_lower
    if has_paper_mention || has_author_mention then (⟨false, []⟩ : VagueResult)
    else result
  else result

/-- Embedding of `query_refinement_node` (src/core/nodes/query_refinement.py,
lines 191-332): apply the deterministic overrides to the model verdict,
store the (at most one) follow-up question, and set the flow-control
fields. -/
def query_refinement_node (s : AgentState) (model : VagueResult) : AgentState :=
  let result := qrOverrides s.query (convHistoryQR s.messages) model
  let s := { s with
    is_vague := result.is_vague
    follow_up_questions := result.follow_up_questions.take 1
    current_node := "query_refinement" }
  if s.is_vague then
    a2aSend "query_refinement" "user" "follow_up_needed"
      { s with should_continue := false, next_node := none }
  else
    a2aSend "query_refinement" "relevance" "query_refined"
      { s with
        refined_query := some s.query
        should_continue := true
        next_node := some "relevance" }

/-! ## Relevance stage (src/core/nodes/relevance.py)

`RelevanceAgent.check_relevance` is one completion-service call; on any
error it returns `{relevant: true, reason: ...}` (fail open).  The node
receives the parsed result as an oracle value. -/

/-- Parsed result of the relevance classification call. -/
structure RelevanceResult where
  relevant : Bool
  reason : String
deriving DecidableEq

/-- The explanatory message stored in `final_response` on rejection. -/
def relevanceApology (course_name reason : String) : String :=
  "I" ++ apos ++ "m sorry, but your question doesn" ++ apos ++
  "t seem to be related to " ++ course_name ++ ". " ++ reason ++
  "\n\nPlease ask a question that is relevant to the course material."

/-- Embedding of `relevance_node` (src/core/nodes/relevance.py, lines 118-189). -/
def relevance_node (s : AgentState) (model : RelevanceResult) : AgentState :=
  let s := { s with
    is_relevant := model.relevant
    relevance_reason := some model.reason
    current_node := "relevance" }
  if !s.is_relevant then
    a2aSend "relevance" "user" "not_relevant"
      { s with
        should_continue := false
        next_node := none
        final_response := some (relevanceApology s.course_name model.reason) }
  else
    a2aSend "relevance" "course_rag" "query_approved"
      { s with should_continue := true, next_node := some "course_rag" }

/-! ## Retriever formatting helpers (src/retrieval/retriever.py)

`CourseRetriever.retrieve` wraps the vector index (an external
collaborator); each call the RAG agent makes to it is an application of the
oracle function `retrieve : String → List Chunk` (the course name and
`top_k` are fixed within one turn).  A retrieval error is caught inside
`retrieve` and returns `[]`, so the oracle covers it. -/

/-- Source line of one chunk in `CourseRetriever.format_context`
(Python truthiness: an empty `module_name`, a page number 0 or an empty
`timestamp` are falsy). -/
def chunkSource (i : Nat) (r : Chunk) : String :=
  let parts :=
    (if optStrTruthy r.module_name then
       ["Module: " ++ r.module_name.getD ""] else []) ++
    ["Document: " ++ r.document_name] ++
    (if optNatTruthy r.page_number then
       ["Page " ++ toString (r.page_number.getD 0)]
     else if optStrTruthy r.timestamp then
       ["Timestamp: " ++ r.timestamp.getD ""]
     else [])
  "[Source " ++ toString i ++ "] " ++ joinSep ", " parts ++ ":\n" ++
    r.content ++ "\n"

/-- Embedding of `CourseRetriever.format_context`. -/
def format_context (results : List Chunk) : String :=
  if results = [] then ""
  else joinSep "\n" ((results.enumFrom 1).map fun p => chunkSource p.1 p.2)

/-- The third component of the deduplication key of
`CourseRetriever.get_citations` (page number, timestamp, or nothing). -/
inductive CiteKey3 where
  | pg (n : Nat)
  | ts (s : String)
  | nil
deriving DecidableEq

/-- Deduplication key of one chunk. -/
def citationKey (r : Chunk) : String × Option String × CiteKey3 :=
  (r.document_name, r.module_name,
   if optNatTruthy r.page_number then CiteKey3.pg (r.page_number.getD 0)
   else if optStrTruthy r.timestamp then CiteKey3.ts (r.timestamp.getD "")
   else CiteKey3.nil)

/-- The citation dict built for one chunk. -/
def citationOf (r : Chunk) : Citation where
  document := r.document_name
  module := if optStrTruthy r.module_name then r.module_name else none
  page := if optNatTruthy r.page_number then r.page_number else none
  timestamp :=
    if optNatTruthy r.page_number then none
    else if optStrTruthy r.timestamp then r.timestamp else none

/-- Embedding of `CourseRetriever.get_citations`: first occurrence of each key wins. -/
def get_citations (results : List Chunk) : List Citation :=
  (results.foldl
    (fun (acc : List Citation × List (String × Option String × CiteKey3)) r =>
      if citationKey r ∈ acc.2 then acc
      else (acc.1 ++ [citationOf r], acc.2 ++ [citationKey r]))
    ([], [])).1

/-! ## Course RAG stage (src/core/nodes/course_rag.py) -/

/-- Temporal-currency cue keywords (used identically in course_rag and
web_search). -/
def currencyKeywords : List String :=
  ["latest", "current", "recent", "new", "updated", "now", "today",
   "2024", "2025"]

/-- Predicate `needs_current_info`: any currency cue occurs in the lowercased query. -/
def needs_current_info (query : String) : Bool :=
  currencyKeywords.any fun k => pyIn k (pyLower query)

/-- Comprehensive-listing cue keywords. -/
def comprehensiveKeywords : List String :=
  ["all", "different", "various", "list", "what are", "how many", "name",
   "types", "kinds"]

/-- Question words stripped when deriving broadened queries. -/
def questionWordsCR : List String :=
  ["what", "are", "the", "different", "various", "all", "how", "many",
   "list", "name"]

/-- Match of `re.search(r'module\s+(\d+|[a-z]+)', ...)` at one position: the literal
`module`, at least one whitespace, then the captured digit run (tried
first) or lower-case letter run. -/
def tryModuleAt (cs : List Char) : Option String :=
  if ("module".data).isPrefixOf cs then
    let cs1 := cs.drop 6
    let cs2 := cs1.dropWhile isPySpace
    if cs2.length < cs1.length then
      let ds := cs2.takeWhile isDigitC
      if ds ≠ [] then some (String.mk ds)
      else
        let ls := cs2.takeWhile isLowerAl
        if ls ≠ [] then some (String.mk ls) else none
    else none
  else none

/-- Leftmost match of the module-reference regex, returning the captured
group. -/
def moduleRefOf : List Char → Option String
  | [] => none
  | c :: rest =>
    match tryModuleAt (c :: rest) with
    | some r => some r
    | none => moduleRefOf rest

/-- Embedding of `CourseRAGAgent._check_answerability`: an empty context short-circuits
to `false`; otherwise the completion-service call is made and its parsed
`answers_question` returned, any error defaulting to `true` (prefer course
content over web fallback).  `llm = none` models the error case. -/
def check_answerability (llm : Option Bool) (context : String) : Bool :=
  if pyStrip context = "" then false
  else
    match llm with
    | some b => b
    | none => true

/-- Result dict of `retrieve_and_check`; `retrieved_chunks = none` models
the dicts returned without that key. -/
structure RAGResult where
  found : Bool
  context : Option String
  citations : List Citation
  retrieved_chunks : Option (List Chunk)
deriving DecidableEq

/-- The comprehensive-retrieval merge: fold the additional queries,
appending chunks whose 50-char content prefix was not seen yet. -/
def mergeComprehensive (retrieve : String → List Chunk) (query_lower : String)
    (additional_queries : List String) (start : List Chunk) : List Chunk :=
  (additional_queries.foldl
    (fun (acc : List Chunk × List String) alt_query =>
      if alt_query = query_lower then acc
      else
        (retrieve alt_query).foldl
          (fun (acc : List Chunk × List String) chunk =>
            let chunk_id := String.mk (chunk.content.data.take 50)
            if chunk_id ∈ acc.2 then acc
            else (acc.1 ++ [chunk], acc.2 ++ [chunk_id]))
          acc)
    (start, start.map fun c => String.mk (c.content.data.take 50))).1

/-- The chunk-selection phase of `CourseRAGAgent.retrieve_and_check`
(lines 87-185): primary retrieval, module-reference enhancement,
comprehensive-listing broadening, and the alternative formulations tried
when nothing was found.  `retrieve` is the vector-index oracle (one
application per `self.retriever.retrieve` call). -/
def ragChunks (retrieve : String → List Chunk)
    (query course_name : String) (top_k : Nat) : List Chunk :=
  let retrieved_chunks := retrieve query
  let query_lower := pyLower query
  -- module-reference enhancement
  let retrieved_chunks :=
    match moduleRefOf query_lower.data with
    | some module_ref =>
      let enhanced_query := query ++ " module " ++ module_ref ++ " content topics"
      let enhanced_chunks := retrieve enhanced_query
      if enhanced_chunks ≠ [] then enhanced_chunks else retrieved_chunks
    | none => retrieved_chunks
  -- comprehensive-listing broadening
  let needs_comprehensive := comprehensiveKeywords.any fun k => pyIn k query_lower
  let retrieved_chunks :=
    if needs_comprehensive && retrieved_chunks ≠ [] then
      let words := (pySplit query_lower).filter fun w =>
        w ∉ questionWordsCR && decide (2 < w.length)
      match words with
      | [] => retrieved_chunks
      | main_topic :: restWords =>
        let additional_queries :=
          [main_topic,
           if main_topic.data.getLast? = some 's' then
             String.mk main_topic.data.dropLast
           else main_topic ++ "s"] ++
          (match restWords with
           | w2 :: _ => [main_topic ++ " " ++ w2]
           | [] => [])
        let all_chunks :=
          mergeComprehensive retrieve query_lower additional_queries
            retrieved_chunks
        if retrieved_chunks.length < all_chunks.length then
          all_chunks.take (top_k * 2)
        else retrieved_chunks
    else retrieved_chunks
  -- alternative formulations when nothing was found
  if retrieved_chunks = [] then
    let c1 := retrieve (pyLower query)
    if c1 ≠ [] then c1
    else retrieve (query ++ " " ++ course_name)
  else retrieved_chunks

/-- Embedding of `CourseRAGAgent.retrieve_and_check` (src/core/nodes/course_rag.py,
lines 70-247): the chunk-selection phase followed by the found-flag
decision (currency override, then the answerability gate; `answerLLM =
none` models an erroring classifier call). -/
def retrieve_and_check (retrieve : String → List Chunk)
    (answerLLM : Option Bool) (query course_name : String) (top_k : Nat) :
    RAGResult :=
  let retrieved_chunks := ragChunks retrieve query course_name top_k
  if retrieved_chunks = [] then
    { found := false, context := none, citations := [], retrieved_chunks := none }
  else
    let context := format_context retrieved_chunks
    let citations := get_citations retrieved_chunks
    let found :=
      if needs_current_info query && retrieved_chunks ≠ [] then false
      else if retrieved_chunks ≠ [] then check_answerability answerLLM context
      else false
    { found := found, context := some context, citations := citations,
      retrieved_chunks := some retrieved_chunks }

/-- Model of `state.get("refined_query", state["query"])`: by the time any node
after query refinement runs, `refined_query` has been set to a string, so
the stored value is used; the initial `None` only occurs on paths that
never reach those nodes. -/
def getRefinedQuery (s : AgentState) : String := s.refined_query.getD s.query

/-- Embedding of `course_rag_node` (src/core/nodes/course_rag.py, lines 258-323). -/
def course_rag_node (s : AgentState) (retrieve : String → List Chunk)
    (answerLLM : Option Bool) : AgentState :=
  let query := getRefinedQuery s
  let result := retrieve_and_check retrieve answerLLM query s.course_name 10
  let s := { s with
    course_content_found := result.found
    course_context := result.context
    course_citations := result.citations
    retrieved_chunks := some (result.retrieved_chunks.getD [])
    current_node := "course_rag" }
  if s.course_content_found then
    a2aSend "course_rag" "personalization" "content_retrieved"
      { s with should_continue := true, next_node := some "personalization" }
  else
    a2aSend "course_rag" "web_search" "content_not_found"
      { s with should_continue := true, next_node := some "web_search" }

/-! ## Web search stage (src/core/nodes/web_search.py)

The provider call returns `{results, citations}`; error strings are stored
rather than swallowed. -/

/-- Parsed provider result. -/
structure WebOutcome where
  results : String
  citations : List WebCitation
deriving DecidableEq

/-- Embedding of `web_search_node` (src/core/nodes/web_search.py, lines 11-74). -/
def web_search_node (s : AgentState) (o : WebOutcome) : AgentState :=
  let search_results := o.results
  let s :=
    if pyIn "not available" (pyLower search_results) ||
        pyIn "error" (pyLower search_results) then
      { s with web_search_results := some search_results,
               web_search_citations := [] }
    else
      { s with web_search_results := some search_results,
               web_search_citations := o.citations }
  a2aSend "web_search" "personalization" "web_search_completed"
    { s with
      current_node := "web_search"
      should_continue := true
      next_node := some "personalization" }

/-! ## Personalization stage (src/core/nodes/personalization.py)

The prompt assembly and the citation-resolution algorithm only shape the
completion-service call and its returned `{response, citations}` dict; the
node's state effects are on `final_response`, `response_citations`, the
flow-control fields and `messages`. -/

/-- Parsed result of `PersonalizationAgent.personalize_response`:
`response = none` models the dict missing the key. -/
structure PersResult where
  response : Option String
  citations : List Citation
deriving DecidableEq

/-- Fallback text when no valid response was produced. -/
def persApology (query : String) : String :=
  "I apologize, but I couldn" ++ apos ++
  "t generate a complete response to your question about " ++ apos ++ query ++
  apos ++ ". Please try rephrasing your question or ask about a different topic."

/-- Embedding of `personalization_node` (src/core/nodes/personalization.py,
lines 436-545). -/
def personalization_node (s : AgentState) (o : PersResult) : AgentState :=
  let query := getRefinedQuery s
  let final_response :=
    match o.response with
    | none => persApology query
    | some r => if r = "" || pyStrip r = "" then persApology query else r
  { s with
    final_response := some final_response
    response_citations := o.citations
    current_node := "personalization"
    should_continue := false
    next_node := none
    messages := s.messages ++ [⟨Role.ai, final_response⟩] }

/-! ## Evaluation engine (src/core/nodes/evaluation.py)

The metrics are pure arithmetic over embedding cosine similarities and
text statistics.  Cosine similarities, the Flesch-Kincaid Gaussian value
`exp(-(g-μ)²/(2σ²))` and the coefficient of variation `std/mean` of the
sentence lengths are irrational in general; they enter the formulas as
oracle inputs (every genuine cosine lies in [-1, 1], the Gaussian value in
(0, 1], the coefficient of variation in [0, ∞)).  Float arithmetic is
modelled by exact rationals. -/

/-- Model of `np.clip(x, lo, hi)`. -/
def clip (x lo hi : ℚ) : ℚ := max lo (min x hi)

/-- Dot product of embedding vectors (rational components). -/
def dotQ : List ℚ → List ℚ → ℚ
  | [], _ => 0
  | _, [] => 0
  | a :: as, b :: bs => a * b + dotQ as bs

/-- Squared Euclidean norm. -/
def normSqQ (l : List ℚ) : ℚ := dotQ l l

/-- Statement that `s` is the cosine similarity of the nonzero vectors `x` and `y`:
`s·‖x‖·‖y‖ = ⟨x,y⟩`, stated via squares (to stay inside ℚ) together with
the matching sign. -/
def IsCosSim (x y : List ℚ) (s : ℚ) : Prop :=
  normSqQ x ≠ 0 ∧ normSqQ y ≠ 0 ∧
  s * s * (normSqQ x * normSqQ y) = dotQ x y * dotQ x y ∧
  (0 ≤ s ↔ 0 ≤ dotQ x y)

/-- Embedding of `EvaluationAgent._normalize`. -/
def normalizeQ (x a b : ℚ) : ℚ :=
  if b = a then 0 else clip ((x - a) / (b - a + 1 / 1000000000)) 0 1

/-- Embedding of `EvaluationAgent._inv_normalize`. -/
def inv_normalize (x a b : ℚ) : ℚ := 1 - normalizeQ x a b

/-- Embedding of `EvaluationAgent._weighted_sum`, including the length-mismatch
renormalisation branch. -/
def weighted_sum (values weights : List ℚ) : ℚ :=
  let weights :=
    if values.length ≠ weights.length then
      let w := weights.take values.length
      if w ≠ [] then
        let total := w.sum
        if 0 < total then w.map (· / total) else w
      else w
    else weights
  ((values.zip weights).map fun p => p.1 * p.2).sum

/-- Model of `np.mean` with the default the source substitutes for an empty list. -/
def meanD (l : List ℚ) (d : ℚ) : ℚ := if l = [] then d else l.sum / l.length

/-- Embedding of `EvaluationAgent.relevance_score` (lines 214-276): 0 when the query or
answer embedding is zero/invalid (`validEmb = false`), else the 70/30
weighted sum of the query↔answer similarity and the mean of the valid
answer↔context similarities (0 when there are none). -/
def relevance_score (validEmb : Bool) (qaSim : ℚ) (acSims : List ℚ) : ℚ :=
  if !validEmb then 0
  else weighted_sum [qaSim, meanD acSims 0] [7 / 10, 3 / 10]

/-- The fluency branch data of `coherence_fluency`: either the sentence
list had length > 1 (with `meanPos` the sign of the mean length and `cv`
the coefficient of variation `std/mean`), or it did not. -/
inductive FluencyInput where
  | fromLengths (meanPos : Bool) (cv : ℚ)
  | noSentences
deriving DecidableEq

/-- Fluency proxy of `coherence_fluency`. -/
def fluencyScore : FluencyInput → ℚ
  | FluencyInput.noSentences => 7 / 10
  | FluencyInput.fromLengths meanPos cv =>
    if meanPos then inv_normalize cv 0 1 else 1 / 2

/-- Embedding of `EvaluationAgent.coherence_fluency` (lines 141-212): 0 with fewer than
two sentence embeddings, else the 70/30 weighted sum of the mean valid
adjacent-sentence similarity (0 when none are valid) and the fluency
proxy. -/
def coherence_fluency (nSentEmb : Nat) (adjSims : List ℚ)
    (fl : FluencyInput) : ℚ :=
  if nSentEmb < 2 then 0
  else weighted_sum [meanD adjSims 0, fluencyScore fl] [7 / 10, 3 / 10]

/-- Embedding of `EvaluationAgent.readability_complexity` (lines 99-139): 0 for
blank text; otherwise the Gaussian band-match value clipped to [0, 1]
(`gauss = none` models the caught textstat error, giving the neutral
0.5). -/
def readability_complexity (text : String) (gauss : Option ℚ) : ℚ :=
  if pyStrip text = "" then 0
  else
    match gauss with
    | none => 1 / 2
    | some g => clip g 0 1

/-- Embedding outcome for one query sub-clause inside `coverage`: a valid
similarity, invalid embeddings (keyword fallback), or a NaN similarity
(the sub-clause is skipped). -/
inductive SimCase where
  | valid (sim : ℚ)
  | invalidEmb
  | nanSim
deriving DecidableEq

/-- Python set-based lexical overlap fallback of `coverage`. -/
def wordOverlap (query answer : String) : ℚ :=
  let query_words := (pySplit (pyLower query)).dedup
  let answer_words := (pySplit (pyLower answer)).dedup
  let overlap := (query_words.filter (· ∈ answer_words)).length
  min ((overlap : ℚ) / (max query_words.length 1 : ℕ)) 1

/-- Keyword fallback for one sub-clause: some word of the part longer than
two characters occurs in the lowercased answer. -/
def keywordHit (part answer : String) : Bool :=
  let part_words := (pySplit part).filter fun w => decide (2 < w.length)
  part_words ≠ [] && part_words.any fun w => pyIn w (pyLower answer)

/-- One sub-clause of the `coverage` loop: credit a valid similarity above
the 0.3 threshold (capped at 1), give the 0.7 keyword-fallback credit on
invalid embeddings, and skip NaN similarities. -/
def coverageStep (partSim : Nat → SimCase) (answer : String)
    (acc : List ℚ) (p : Nat × String) : List ℚ :=
  match partSim p.1 with
  | SimCase.valid sim =>
    if 3 / 10 < sim then acc ++ [min sim 1] else acc
  | SimCase.invalidEmb =>
    if keywordHit p.2 answer then acc ++ [7 / 10] else acc
  | SimCase.nanSim => acc

/-- Embedding of `EvaluationAgent.coverage` (lines 278-365).  `parts` is the sub-clause
split of the query (`re.split(r"[;,.]|\band\b|\bor\b", ...)`, filtered to
stripped pieces longer than two characters), `partSim i` the embedding
outcome of part `i`, and `mainSim` the whole-query similarity outcome used
when no sub-parts exist (`none` = invalid embeddings or NaN, falling back
to lexical overlap). -/
def coverage (partSim : Nat → SimCase) (mainSim : Option ℚ)
    (query answer : String) (parts : List String) : ℚ :=
  if answer = "" || query = "" then 0
  else if parts = [] then
    match mainSim with
    | none => wordOverlap query answer
    | some s => clip s 0 1
  else
    let found_scores := (parts.enum).foldl (coverageStep partSim answer) []
    if found_scores = [] then 0 else meanD found_scores 0

/-- Per-source metadata dict built in `evaluate_web_response`. -/
structure SourceMeta where
  venue : ℚ
  author : ℚ
  recency : ℚ
  citation : ℚ
  integrity : ℚ
deriving DecidableEq

/-- Embedding of `EvaluationAgent.source_credibility` (lines 367-405). -/
def source_credibility (sources : List SourceMeta) : ℚ :=
  if sources = [] then 0
  else
    meanD
      (sources.map fun m =>
        weighted_sum [m.venue, m.author, m.recency, m.citation, m.integrity]
          [2 / 10, 2 / 10, 2 / 10, 2 / 10, 2 / 10])
      0

/-- Model of `urlparse(url).netloc.lower()` for the http(s) URLs the heuristic
handles: the text between `"://"` and the next `/`, lowercased ("" when no
scheme separator occurs). -/
def afterMarker (pat : List Char) : List Char → Option (List Char)
  | [] => none
  | c :: rest =>
    if pat.isPrefixOf (c :: rest) then some ((c :: rest).drop pat.length)
    else afterMarker pat rest

/-- Domain extraction used by the credibility heuristic. -/
def urlDomain (url : String) : String :=
  match afterMarker "://".data (pyLower url).data with
  | some rest => String.mk (rest.takeWhile fun c => c ≠ '/')
  | none => ""

/-- Domain-class venue score of `evaluate_web_response`. -/
def venueScore (domain : String) : ℚ :=
  if domain = "" then 1 / 2
  else if [".edu", ".ac.", ".gov"].any (fun e => pyIn e domain) then 9 / 10
  else if [".org", "wikipedia", "scholar"].any (fun e => pyIn e domain) then 7 / 10
  else if ["blogspot", "wordpress.com"].any (fun e => pyIn e domain) then 4 / 10
  else 1 / 2

/-- The metadata entry built for one web source. -/
def sourceMetaOf (c : WebCitation) : SourceMeta :=
  ⟨venueScore (urlDomain c.url), 1 / 2, 8 / 10, 1 / 2, 6 / 10⟩

/-- Source-count consensus proxy. -/
def consensusOfCount (n : Nat) : ℚ :=
  if 5 ≤ n then 8 / 10
  else if 3 ≤ n then 7 / 10
  else if 1 ≤ n then 1 / 2
  else 3 / 10

/-- Oracle inputs of one evaluation call: the embedding/text-statistic
values feeding the pure metric formulas, plus the caught-exception flag of
the surrounding `evaluate_*_response` (`failed = true` gives the neutral
0.5 defaults). -/
structure EvalInp where
  failed : Bool := false
  relValid : Bool := true
  qaSim : ℚ := 0
  acSims : List ℚ := []
  readGauss : Option ℚ := some 0
  nSentEmb : Nat := 0
  cohSims : List ℚ := []
  fluency : FluencyInput := FluencyInput.noSentences
  covParts : List String := []
  covPartSim : Nat → SimCase := fun _ => SimCase.nanSim
  covMainSim : Option ℚ := none

/-- Score lookup in the result dict. -/
def scoresGet (scores : List (String × ℚ)) (k : String) (d : ℚ) : ℚ :=
  match scores.find? fun p => p.1 = k with
  | some p => p.2
  | none => d

/-- Embedding of `EvaluationAgent.evaluate_course_response` (lines 457-546). -/
def evaluate_course_response (inp : EvalInp) (query answer : String) :
    List (String × ℚ) :=
  if inp.failed then
    [("relevance", 1 / 2), ("readability", 1 / 2), ("coherence", 1 / 2),
     ("coverage", 1 / 2), ("overall", 1 / 2)]
  else
    let relevance := relevance_score inp.relValid inp.qaSim inp.acSims
    let readability := readability_complexity answer inp.readGauss
    let coherence := coherence_fluency inp.nSentEmb inp.cohSims inp.fluency
    let cov := coverage inp.covPartSim inp.covMainSim query answer inp.covParts
    let overall :=
      weighted_sum [relevance, readability, coherence, cov]
        [35 / 100, 25 / 100, 2 / 10, 2 / 10]
    [("relevance", relevance), ("readability", readability),
     ("coherence", coherence), ("coverage", cov), ("overall", overall)]

/-- Embedding of `EvaluationAgent.evaluate_web_response` (lines 548-698). -/
def evaluate_web_response (inp : EvalInp) (query answer : String)
    (web_sources : List WebCitation) : List (String × ℚ) :=
  if inp.failed then
    [("relevance", 1 / 2), ("readability", 1 / 2), ("coherence", 1 / 2),
     ("coverage", 1 / 2), ("credibility", 1 / 2), ("consensus", 1 / 2),
     ("consistency", 1 / 2), ("overall", 1 / 2)]
  else
    let relevance := relevance_score inp.relValid inp.qaSim inp.acSims
    let readability := readability_complexity answer inp.readGauss
    let coherence := coherence_fluency inp.nSentEmb inp.cohSims inp.fluency
    let cov := coverage inp.covPartSim inp.covMainSim query answer inp.covParts
    let source_metadata := web_sources.map sourceMetaOf
    let credibility :=
      if source_metadata ≠ [] then source_credibility source_metadata else 1 / 2
    let consensus := consensusOfCount web_sources.length
    let consistency : ℚ := 3 / 4
    let overall :=
      weighted_sum
        [relevance, readability, coherence, cov, credibility, consensus,
         consistency]
        [3 / 10, 2 / 10, 15 / 100, 15 / 100, 1 / 10, 5 / 100, 5 / 100]
    [("relevance", relevance), ("readability", readability),
     ("coherence", coherence), ("coverage", cov),
     ("credibility", credibility), ("consensus", consensus),
     ("consistency", consistency), ("overall", overall)]

/-- The score dict computed by `evaluation_node` for a non-empty answer:
course-sourced answers are graded by `evaluate_course_response`,
web-sourced ones by `evaluate_web_response` over the stored citations. -/
def nodeScores (s : AgentState) (inp : EvalInp) : List (String × ℚ) :=
  if s.course_content_found then
    evaluate_course_response inp (getRefinedQuery s) (s.final_response.getD "")
  else
    evaluate_web_response inp (getRefinedQuery s) (s.final_response.getD "")
      s.web_search_citations

/-- Embedding of `evaluation_node` (src/core/nodes/evaluation.py, lines 701-773). -/
def evaluation_node (s : AgentState) (inp : EvalInp) : AgentState :=
  let answer := s.final_response.getD ""
  if answer = "" then
    { s with evaluation_scores := some [("overall", 0)],
             evaluation_passed := false }
  else
    let scores := nodeScores s inp
    let overall := scoresGet scores "overall" 0
    { s with
      evaluation_scores := some scores
      evaluation_passed := decide (7 / 10 ≤ overall)
      response_history := s.response_history ++ [(answer, overall)] }

/-! ## Refinement stage (src/core/nodes/refinement.py)

`RefinementAgent.refine_response` makes one completion-service call and
returns its text; any error is caught and the original answer returned
unchanged (`llm = none`). -/

/-- Embedding of `refinement_node` (src/core/nodes/refinement.py, lines 117-152). -/
def refinement_node (s : AgentState) (llm : Option String) : AgentState :=
  let answer := s.final_response.getD ""
  let refined :=
    match llm with
    | some t => t
    | none => answer
  { s with
    final_response := some refined
    refinement_attempts := s.refinement_attempts + 1 }

/-! ## The orchestration graph (src/core/graph.py)

The LangGraph wiring: entry point `query_refinement`, conditional edges
given by the four routing functions, the fixed edges
`web_search → personalization`, `personalization → evaluation` and
`refinement → evaluation`.  `Node.done` is the terminal `END`. -/

/-- The nodes of the graph plus the terminal `END`. -/
inductive Node where
  | query_refinement
  | relevance
  | course_rag
  | web_search
  | personalization
  | evaluation
  | refinement
  | done
deriving DecidableEq

/-- The disclaimer added by the router after three failed refinements. -/
def disclaimerText : String :=
  "Note: I could not fully meet the quality threshold in 3 attempts, but here is the best answer I can provide based on the available evidence.\n\n"

/-- Embedding of `route_after_query_refinement` (graph.py, lines 19-26). -/
def route_after_query_refinement (s : AgentState) : Node :=
  if s.is_vague then Node.done else Node.relevance

/-- Embedding of `route_after_relevance` (graph.py, lines 29-34). -/
def route_after_relevance (s : AgentState) : Node :=
  if s.is_relevant then Node.course_rag else Node.done

/-- Embedding of `route_after_course_rag` (graph.py, lines 37-44). -/
def route_after_course_rag (s : AgentState) : Node :=
  if s.course_content_found then Node.personalization else Node.web_search

/-- Embedding of `route_after_evaluation` (graph.py, lines 47-61): on the exhausted
branch the router writes `disclaimer + final_response` back into the state
before ending the turn. -/
def route_after_evaluation (s : AgentState) : AgentState × Node :=
  if s.evaluation_passed then (s, Node.done)
  else if s.refinement_attempts < 3 then (s, Node.refinement)
  else
    ({ s with
        final_response := some (disclaimerText ++ s.final_response.getD "") },
     Node.done)

/-- All external outcomes of one turn.  Nodes that can run several times
in a turn (evaluation, refinement) index their oracle by the value of
`refinement_attempts` at call time, which identifies the invocation. -/
structure TurnOracle where
  vague : VagueResult
  relevanceLLM : RelevanceResult
  retrieve : String → List Chunk
  answerability : Option Bool
  web : WebOutcome
  pers : PersResult
  evalInp : Nat → EvalInp
  refineLLM : Nat → Option String

/-- Execute one node's body on the state. -/
def execNode (o : TurnOracle) : Node → AgentState → AgentState
  | Node.query_refinement, s => query_refinement_node s o.vague
  | Node.relevance, s => relevance_node s o.relevanceLLM
  | Node.course_rag, s => course_rag_node s o.retrieve o.answerability
  | Node.web_search, s => web_search_node s o.web
  | Node.personalization, s => personalization_node s o.pers
  | Node.evaluation, s => evaluation_node s (o.evalInp s.refinement_attempts)
  | Node.refinement, s => refinement_node s (o.refineLLM s.refinement_attempts)
  | Node.done, s => s

/-- Route from a node after its body ran (the router may update the
state). -/
def routeFrom : Node → AgentState → AgentState × Node
  | Node.query_refinement, s => (s, route_after_query_refinement s)
  | Node.relevance, s => (s, route_after_relevance s)
  | Node.course_rag, s => (s, route_after_course_rag s)
  | Node.web_search, s => (s, Node.personalization)
  | Node.personalization, s => (s, Node.evaluation)
  | Node.evaluation, s => route_after_evaluation s
  | Node.refinement, s => (s, Node.evaluation)
  | Node.done, s => (s, Node.done)

/-- One transition of the state machine: run the node, then route. -/
def step (o : TurnOracle) (n : Node) (s : AgentState) : AgentState × Node :=
  routeFrom n (execNode o n s)

/-- Result of running the machine: final state, final node, and the list
of nodes whose bodies were executed, in order. -/
structure RunRes where
  state : AgentState
  node : Node
  trace : List Node

/-- Fuel-bounded execution of the graph from a node.  The entry point of a
turn is `Node.query_refinement`. -/
def run (o : TurnOracle) : Nat → Node → AgentState → RunRes
  | 0, n, s => ⟨s, n, []⟩
  | fuel + 1, n, s =>
    if n = Node.done then ⟨s, Node.done, []⟩
    else
      let p := step o n s
      let r := run o fuel p.2 p.1
      ⟨r.state, r.node, n :: r.trace⟩

/-! ## Basic lemmas about the machine -/

theorem run_done (o : TurnOracle) (fuel : Nat) (s : AgentState) :
    run o fuel Node.done s = ⟨s, Node.done, []⟩ := by
  cases fuel <;> simp [run]

theorem run_succ (o : TurnOracle) (fuel : Nat) (n : Node) (s : AgentState)
    (h : n ≠ Node.done) :
    run o (fuel + 1) n s =
      ⟨(run o fuel (step o n s).2 (step o n s).1).state,
       (run o fuel (step o n s).2 (step o n s).1).node,
       n :: (run o fuel (step o n s).2 (step o n s).1).trace⟩ := by
  simp [run, h]

theorem run_add (o : TurnOracle) (f g : Nat) (n : Node) (s : AgentState) :
    run o (f + g) n s =
      ⟨(run o g (run o f n s).node (run o f n s).state).state,
       (run o g (run o f n s).node (run o f n s).state).node,
       (run o f n s).trace ++
         (run o g (run o f n s).node (run o f n s).state).trace⟩ := by
  induction f generalizing n s with
  | zero => simp [run]
  | succ f ih =>
    by_cases h : n = Node.done
    · subst h
      simp [run_done]
    · rw [Nat.succ_add, run_succ o (f + g) n s h, run_succ o f n s h, ih]
      rfl

theorem run_node_done_mono (o : TurnOracle) (f f' : Nat) (n : Node)
    (s : AgentState) (hle : f ≤ f') (h : (run o f n s).node = Node.done) :
    (run o f' n s).node = Node.done ∧
      (run o f' n s).state = (run o f n s).state := by
  obtain ⟨d, rfl⟩ := Nat.exists_eq_add_of_le hle
  rw [run_add, h, run_done]
  exact ⟨rfl, rfl⟩

/-- A state-machine invariant preserved by every `step` holds at the end
of every run. -/
theorem run_inv (o : TurnOracle) (P : Node → AgentState → Prop)
    (hstep : ∀ n s, n ≠ Node.done → P n s → P (step o n s).2 (step o n s).1) :
    ∀ fuel n s, P n s → P (run o fuel n s).node (run o fuel n s).state := by
  intro fuel
  induction fuel with
  | zero => intro n s h; simpa [run] using h
  | succ fuel ih =>
    intro n s h
    by_cases hn : n = Node.done
    · subst hn; simpa [run_done] using h
    · rw [run_succ o fuel n s hn]
      exact ih _ _ (hstep n s hn h)

/-! ### `refinement_attempts` bookkeeping -/

theorem a2aSend_attempts (x y z : String) (s : AgentState) :
    (a2aSend x y z s).refinement_attempts = s.refinement_attempts := rfl

theorem query_refinement_node_attempts (s : AgentState) (m : VagueResult) :
    (query_refinement_node s m).refinement_attempts = s.refinement_attempts := by
  simp only [query_refinement_node]
  split <;> rfl

theorem relevance_node_attempts (s : AgentState) (m : RelevanceResult) :
    (relevance_node s m).refinement_attempts = s.refinement_attempts := by
  simp only [relevance_node]
  split <;> rfl

theorem course_rag_node_attempts (s : AgentState)
    (retrieve : String → List Chunk) (a : Option Bool) :
    (course_rag_node s retrieve a).refinement_attempts =
      s.refinement_attempts := by
  simp only [course_rag_node]
  split <;> rfl

theorem web_search_node_attempts (s : AgentState) (w : WebOutcome) :
    (web_search_node s w).refinement_attempts = s.refinement_attempts := by
  simp only [web_search_node]
  split <;> rfl

theorem personalization_node_attempts (s : AgentState) (p : PersResult) :
    (personalization_node s p).refinement_attempts = s.refinement_attempts :=
  rfl

theorem evaluation_node_attempts (s : AgentState) (i : EvalInp) :
    (evaluation_node s i).refinement_attempts = s.refinement_attempts := by
  simp only [evaluation_node]
  split <;> rfl

theorem refinement_node_attempts (s : AgentState) (l : Option String) :
    (refinement_node s l).refinement_attempts = s.refinement_attempts + 1 :=
  rfl

theorem route_after_evaluation_attempts (s : AgentState) :
    (route_after_evaluation s).1.refinement_attempts =
      s.refinement_attempts := by
  simp only [route_after_evaluation]
  split
  · rfl
  · split <;> rfl

theorem step_attempts (o : TurnOracle) (n : Node) (s : AgentState) :
    (step o n s).1.refinement_attempts =
      s.refinement_attempts + (if n = Node.refinement then 1 else 0) := by
  cases n <;>
    simp [step, execNode, routeFrom, route_after_evaluation_attempts,
      query_refinement_node_attempts, relevance_node_attempts,
      course_rag_node_attempts, web_search_node_attempts,
      personalization_node_attempts, evaluation_node_attempts,
      refinement_node_attempts]

/-- The final attempt counter is the initial one plus the number of
executed refinement passes. -/
theorem run_attempts_count (o : TurnOracle) :
    ∀ (fuel : Nat) (n : Node) (s : AgentState),
      (run o fuel n s).state.refinement_attempts =
        s.refinement_attempts +
          (run o fuel n s).trace.count Node.refinement := by
  intro fuel
  induction fuel with
  | zero => intro n s; simp [run]
  | succ fuel ih =>
    intro n s
    by_cases hn : n = Node.done
    · subst hn; simp [run_done]
    · rw [run_succ o fuel n s hn]
      simp only [List.count_cons, ih, step_attempts]
      by_cases hr : n = Node.refinement
      · subst hr; simp [Nat.add_comm, Nat.add_assoc, Nat.add_left_comm]
      · simp [hr, Ne.symm hr]

/-! ### The bounded-retry invariant and termination -/

/-- Invariant: the attempt counter never exceeds 3, and the refinement
node is only ever entered with at most 2 recorded attempts. -/
def AttRange (n : Node) (s : AgentState) : Prop :=
  s.refinement_attempts ≤ 3 ∧ (n = Node.refinement → s.refinement_attempts ≤ 2)

theorem step_att_range (o : TurnOracle) (n : Node) (s : AgentState)
    (hn : n ≠ Node.done) (h : AttRange n s) :
    AttRange (step o n s).2 (step o n s).1 := by
  obtain ⟨h1, h2⟩ := h
  cases n with
  | done => exact absurd rfl hn
  | query_refinement =>
    constructor
    · simp [step, routeFrom, execNode, query_refinement_node_attempts, h1]
    · intro href
      simp only [step, routeFrom, execNode,
        route_after_query_refinement] at href
      split at href <;> simp_all
  | relevance =>
    constructor
    · simp [step, routeFrom, execNode, relevance_node_attempts, h1]
    · intro href
      simp only [step, routeFrom, execNode, route_after_relevance] at href
      split at href <;> simp_all
  | course_rag =>
    constructor
    · simp [step, routeFrom, execNode, course_rag_node_attempts, h1]
    · intro href
      simp only [step, routeFrom, execNode, route_after_course_rag] at href
      split at href <;> simp_all
  | web_search =>
    constructor
    · simp [step, routeFrom, execNode, web_search_node_attempts, h1]
    · intro href
      simp [step, routeFrom, execNode] at href
  | personalization =>
    constructor
    · simp [step, routeFrom, execNode, personalization_node_attempts, h1]
    · intro href
      simp [step, routeFrom, execNode] at href
  | evaluation =>
    have hp := evaluation_node_attempts s (o.evalInp s.refinement_attempts)
    simp only [step, routeFrom, execNode, route_after_evaluation]
    split
    · exact ⟨by simpa [hp] using h1, by simp⟩
    · split
      next hlt =>
        refine ⟨by simpa [hp] using h1, fun _ => ?_⟩
        show (evaluation_node s
          (o.evalInp s.refinement_attempts)).refinement_attempts ≤ 2
        omega
      next hge => exact ⟨by simpa [hp] using h1, by simp⟩
  | refinement =>
    have ha : s.refinement_attempts ≤ 2 := h2 rfl
    constructor
    · simp only [step, routeFrom, execNode, refinement_node_attempts]
      omega
    · intro href
      simp [step, routeFrom, execNode] at href

/-- From the evaluation node, the machine reaches `END` within `2k+1`
steps once `refinement_attempts + k ≥ 3`: every loop iteration increments
the counter, and the router stops at 3. -/
theorem eval_term (o : TurnOracle) :
    ∀ (k : Nat) (s : AgentState), 3 ≤ s.refinement_attempts + k →
      (run o (2 * k + 1) Node.evaluation s).node = Node.done := by
  intro k
  induction k with
  | zero =>
    intro s h
    rw [show 2 * 0 + 1 = 0 + 1 from rfl, run_succ _ 0 _ _ (by simp)]
    have hp := evaluation_node_attempts s (o.evalInp s.refinement_attempts)
    simp only [step, routeFrom, execNode, route_after_evaluation]
    split
    · simp [run]
    · split
      next hlt => omega
      next => simp [run]
  | succ k ih =>
    intro s h
    rw [show 2 * (k + 1) + 1 = (2 * k + 2) + 1 from by ring,
      run_succ _ _ _ _ (by simp)]
    have hp := evaluation_node_attempts s (o.evalInp s.refinement_attempts)
    simp only [step, routeFrom, execNode, route_after_evaluation]
    split
    · simp [run_done]
    · split
      next hlt =>
        -- one refinement pass, then back to evaluation with the counter up
        rw [show 2 * k + 2 = (2 * k + 1) + 1 from rfl,
          run_succ _ _ _ _ (by simp)]
        simp only [step, routeFrom, execNode]
        exact ih _ (by
          rw [refinement_node_attempts]
          omega)
      next => simp [run_done]

theorem pers_term (o : TurnOracle) (s : AgentState) :
    (run o 8 Node.personalization s).node = Node.done := by
  rw [show (8 : Nat) = 7 + 1 from rfl, run_succ _ _ _ _ (by simp)]
  simp only [step, routeFrom, execNode]
  exact eval_term o 3 _ (by omega)

theorem ws_term (o : TurnOracle) (s : AgentState) :
    (run o 9 Node.web_search s).node = Node.done := by
  rw [show (9 : Nat) = 8 + 1 from rfl, run_succ _ _ _ _ (by simp)]
  simp only [step, routeFrom, execNode]
  exact pers_term o _

theorem cr_term (o : TurnOracle) (s : AgentState) :
    (run o 10 Node.course_rag s).node = Node.done := by
  rw [show (10 : Nat) = 9 + 1 from rfl, run_succ _ _ _ _ (by simp)]
  simp only [step, routeFrom, execNode, route_after_course_rag]
  split
  · exact (run_node_done_mono o 8 9 _ _ (by omega) (pers_term o _)).1
  · exact ws_term o _

theorem rel_term (o : TurnOracle) (s : AgentState) :
    (run o 11 Node.relevance s).node = Node.done := by
  rw [show (11 : Nat) = 10 + 1 from rfl, run_succ _ _ _ _ (by simp)]
  simp only [step, routeFrom, execNode, route_after_relevance]
  split
  · exact cr_term o _
  · simp [run_done]

/-- Every turn reaches `END` within 12 node executions. -/
theorem qr_term (o : TurnOracle) (s : AgentState) :
    (run o 12 Node.query_refinement s).node = Node.done := by
  rw [show (12 : Nat) = 11 + 1 from rfl, run_succ _ _ _ _ (by simp)]
  simp only [step, routeFrom, execNode, route_after_query_refinement]
  split
  · simp [run_done]
  · exact rel_term o _

/-! ### Frame lemmas: which fields each node writes -/

theorem a2aSend_frame (x y z : String) (s : AgentState) :
    (a2aSend x y z s).course_content_found = s.course_content_found ∧
    (a2aSend x y z s).web_search_results = s.web_search_results ∧
    (a2aSend x y z s).final_response = s.final_response ∧
    (a2aSend x y z s).evaluation_passed = s.evaluation_passed :=
  ⟨rfl, rfl, rfl, rfl⟩

theorem query_refinement_node_frame (s : AgentState) (m : VagueResult) :
    (query_refinement_node s m).course_content_found =
      s.course_content_found ∧
    (query_refinement_node s m).web_search_results = s.web_search_results ∧
    (query_refinement_node s m).final_response = s.final_response ∧
    (query_refinement_node s m).evaluation_passed = s.evaluation_passed := by
  simp only [query_refinement_node]
  split <;> exact ⟨rfl, rfl, rfl, rfl⟩

theorem relevance_node_frame (s : AgentState) (m : RelevanceResult) :
    (relevance_node s m).course_content_found = s.course_content_found ∧
    (relevance_node s m).web_search_results = s.web_search_results ∧
    (relevance_node s m).evaluation_passed = s.evaluation_passed := by
  simp only [relevance_node]
  split <;> exact ⟨rfl, rfl, rfl⟩

theorem relevance_node_final_response (s : AgentState) (m : RelevanceResult) :
    (relevance_node s m).final_response =
      (if m.relevant then s.final_response
       else some (relevanceApology s.course_name m.reason)) := by
  simp only [relevance_node]
  split
  next h =>
    rw [if_neg]
    · rfl
    · simp only [Bool.not_eq_true'] at h
      simp [h]
  next h =>
    rw [if_pos]
    · rfl
    · simpa using h

theorem course_rag_node_frame (s : AgentState)
    (retrieve : String → List Chunk) (a : Option Bool) :
    (course_rag_node s retrieve a).web_search_results =
      s.web_search_results ∧
    (course_rag_node s retrieve a).final_response = s.final_response ∧
    (course_rag_node s retrieve a).evaluation_passed =
      s.evaluation_passed := by
  simp only [course_rag_node]
  split <;> exact ⟨rfl, rfl, rfl⟩

theorem course_rag_node_found (s : AgentState)
    (retrieve : String → List Chunk) (a : Option Bool) :
    (course_rag_node s retrieve a).course_content_found =
      (retrieve_and_check retrieve a (getRefinedQuery s)
        s.course_name 10).found := by
  simp only [course_rag_node]
  split <;> rfl

theorem web_search_node_frame (s : AgentState) (w : WebOutcome) :
    (web_search_node s w).course_content_found = s.course_content_found ∧
    (web_search_node s w).final_response = s.final_response ∧
    (web_search_node s w).evaluation_passed = s.evaluation_passed ∧
    (web_search_node s w).web_search_results = some w.results := by
  simp only [web_search_node]
  split <;> exact ⟨rfl, rfl, rfl, rfl⟩

theorem personalization_node_frame (s : AgentState) (p : PersResult) :
    (personalization_node s p).course_content_found =
      s.course_content_found ∧
    (personalization_node s p).web_search_results = s.web_search_results ∧
    (personalization_node s p).evaluation_passed = s.evaluation_passed :=
  ⟨rfl, rfl, rfl⟩

theorem personalization_node_final_response (s : AgentState) (p : PersResult) :
    (personalization_node s p).final_response =
      some (match p.response with
            | none => persApology (getRefinedQuery s)
            | some r =>
              if r = "" || pyStrip r = "" then persApology (getRefinedQuery s)
              else r) := rfl

theorem evaluation_node_frame (s : AgentState) (i : EvalInp) :
    (evaluation_node s i).course_content_found = s.course_content_found ∧
    (evaluation_node s i).web_search_results = s.web_search_results ∧
    (evaluation_node s i).final_response = s.final_response := by
  simp only [evaluation_node]
  split <;> exact ⟨rfl, rfl, rfl⟩

theorem refinement_node_frame (s : AgentState) (l : Option String) :
    (refinement_node s l).course_content_found = s.course_content_found ∧
    (refinement_node s l).web_search_results = s.web_search_results ∧
    (refinement_node s l).evaluation_passed = s.evaluation_passed :=
  ⟨rfl, rfl, rfl⟩

theorem refinement_node_final_response (s : AgentState) (l : Option String) :
    (refinement_node s l).final_response =
      some (match l with
            | some t => t
            | none => s.final_response.getD "") := rfl

theorem route_after_evaluation_frame (s : AgentState) :
    (route_after_evaluation s).1.course_content_found =
      s.course_content_found ∧
    (route_after_evaluation s).1.web_search_results = s.web_search_results ∧
    (route_after_evaluation s).1.evaluation_passed = s.evaluation_passed := by
  simp only [route_after_evaluation]
  split
  · exact ⟨rfl, rfl, rfl⟩
  · split <;> exact ⟨rfl, rfl, rfl⟩

/-! ### Course content found ⇒ web search never runs -/

/-- Nodes reachable once the context source has been decided. -/
def PostSet (n : Node) : Prop :=
  n = Node.personalization ∨ n = Node.evaluation ∨ n = Node.refinement ∨
    n = Node.done

theorem step_post (o : TurnOracle) (n : Node) (s : AgentState)
    (h : PostSet n) (hn : n ≠ Node.done) :
    PostSet (step o n s).2 ∧
    (step o n s).1.course_content_found = s.course_content_found ∧
    (step o n s).1.web_search_results = s.web_search_results := by
  rcases h with h | h | h | h
  · subst h
    exact ⟨Or.inr (Or.inl rfl), (personalization_node_frame s o.pers).1,
      (personalization_node_frame s o.pers).2.1⟩
  · subst h
    have hf := evaluation_node_frame s (o.evalInp s.refinement_attempts)
    have hr :=
      route_after_evaluation_frame (evaluation_node s (o.evalInp s.refinement_attempts))
    refine ⟨?_, by simp only [step, routeFrom, execNode]; rw [hr.1, hf.1],
      by simp only [step, routeFrom, execNode]; rw [hr.2.1, hf.2.1]⟩
    simp only [step, routeFrom, execNode, route_after_evaluation]
    split
    · exact Or.inr (Or.inr (Or.inr rfl))
    · split
      · exact Or.inr (Or.inr (Or.inl rfl))
      · exact Or.inr (Or.inr (Or.inr rfl))
  · subst h
    exact ⟨Or.inr (Or.inl rfl),
      (refinement_node_frame s (o.refineLLM s.refinement_attempts)).1,
      (refinement_node_frame s (o.refineLLM s.refinement_attempts)).2.1⟩
  · exact absurd h hn

/-- After retrieval has decided the source, `course_content_found` and
`web_search_results` are frozen and the web-search node can never run. -/
theorem run_post_freeze (o : TurnOracle) :
    ∀ (fuel : Nat) (n : Node) (s : AgentState), PostSet n →
      (run o fuel n s).state.course_content_found = s.course_content_found ∧
      (run o fuel n s).state.web_search_results = s.web_search_results ∧
      Node.web_search ∉ (run o fuel n s).trace := by
  intro fuel
  induction fuel with
  | zero => intro n s _; simp [run]
  | succ fuel ih =>
    intro n s h
    by_cases hn : n = Node.done
    · subst hn; simp [run_done]
    · rw [run_succ o fuel n s hn]
      obtain ⟨hp, hc, hw⟩ := step_post o n s h hn
      obtain ⟨ih1, ih2, ih3⟩ := ih _ _ hp
      refine ⟨ih1.trans hc, ih2.trans hw, ?_⟩
      intro hmem
      rcases List.mem_cons.mp hmem with hmem | hmem
      · rcases h with h | h | h | h <;> simp [← hmem] at h
      · exact ih3 hmem

/-- The invariant behind the round-trip property: before retrieval the
course flag is down and no web results exist; once the flag is up the
machine is past retrieval and carries no web results. -/
def Inv5 (n : Node) (s : AgentState) : Prop :=
  (n = Node.query_refinement ∨ n = Node.relevance ∨ n = Node.course_rag →
     s.course_content_found = false ∧ s.web_search_results = none) ∧
  (s.course_content_found = true →
     s.web_search_results = none ∧ PostSet n) ∧
  (n = Node.web_search → s.course_content_found = false)

theorem inv5_of_false {n : Node} {s : AgentState}
    (h1 : s.course_content_found = false) (h2 : s.web_search_results = none) :
    Inv5 n s :=
  ⟨fun _ => ⟨h1, h2⟩, fun h => absurd h (by simp [h1]), fun _ => h1⟩

theorem preset_not_post {n : Node}
    (h : n = Node.query_refinement ∨ n = Node.relevance ∨ n = Node.course_rag)
    (hp : PostSet n) : False := by
  rcases h with h | h | h <;> subst h <;>
    rcases hp with hp | hp | hp | hp <;> simp at hp

theorem inv5_of_post {n : Node} {s : AgentState} (hp : PostSet n)
    (h : s.course_content_found = true → s.web_search_results = none) :
    Inv5 n s := by
  refine ⟨fun hh => absurd hp (fun hpost => preset_not_post hh hpost),
    fun hc => ⟨h hc, hp⟩, fun hw => ?_⟩
  subst hw
  rcases hp with hp | hp | hp | hp <;> simp at hp

/-- If a run ends with `course_content_found = true` then the web-search
node never executed and `web_search_results` kept its initial `None`. -/
theorem run_c5 (o : TurnOracle) :
    ∀ (fuel : Nat) (n : Node) (s : AgentState), Inv5 n s →
      (run o fuel n s).state.course_content_found = true →
        Node.web_search ∉ (run o fuel n s).trace ∧
        (run o fuel n s).state.web_search_results = none := by
  intro fuel
  induction fuel with
  | zero =>
    intro n s hinv hccf
    simp only [run] at hccf ⊢
    exact ⟨by simp, (hinv.2.1 hccf).1⟩
  | succ fuel ih =>
    intro n s hinv hccf
    by_cases hn : n = Node.done
    · subst hn
      rw [run_done] at hccf ⊢
      exact ⟨by simp, (hinv.2.1 hccf).1⟩
    · rw [run_succ o fuel n s hn] at hccf ⊢
      by_cases hws : n = Node.web_search
      · -- web search starts with the flag down, and it stays down forever
        exfalso
        subst hws
        have h0 : s.course_content_found = false := hinv.2.2 rfl
        have h1 : (step o Node.web_search s).1.course_content_found = false := by
          simp only [step, routeFrom, execNode]
          rw [(web_search_node_frame s o.web).1]
          exact h0
        have h2 : (step o Node.web_search s).2 = Node.personalization := by
          simp [step, routeFrom, execNode]
        have := (run_post_freeze o fuel (step o Node.web_search s).2
          (step o Node.web_search s).1 (by rw [h2]; exact Or.inl rfl)).1
        rw [hccf, h1] at this
        simp at this
      · -- any other node preserves the invariant
        have hinv' : Inv5 (step o n s).2 (step o n s).1 := by
          cases n with
          | done => exact absurd rfl hn
          | web_search => exact absurd rfl hws
          | query_refinement =>
            obtain ⟨h1, h2⟩ := hinv.1 (Or.inl rfl)
            have hf := query_refinement_node_frame s o.vague
            exact inv5_of_false (by simp only [step, routeFrom, execNode]
                                    rw [hf.1]; exact h1)
              (by simp only [step, routeFrom, execNode]
                  rw [hf.2.1]; exact h2)
          | relevance =>
            obtain ⟨h1, h2⟩ := hinv.1 (Or.inr (Or.inl rfl))
            have hf := relevance_node_frame s o.relevanceLLM
            exact inv5_of_false (by simp only [step, routeFrom, execNode]
                                    rw [hf.1]; exact h1)
              (by simp only [step, routeFrom, execNode]
                  rw [hf.2.1]; exact h2)
          | course_rag =>
            obtain ⟨h1, h2⟩ := hinv.1 (Or.inr (Or.inr rfl))
            have hf := course_rag_node_frame s o.retrieve o.answerability
            have hwsr : (step o Node.course_rag s).1.web_search_results = none := by
              simp only [step, routeFrom, execNode]
              rw [hf.1]; exact h2
            by_cases hfound :
                (course_rag_node s o.retrieve o.answerability).course_content_found = true
            · have hnode : (step o Node.course_rag s).2 = Node.personalization := by
                simp [step, routeFrom, execNode, route_after_course_rag, hfound]
              refine inv5_of_post (by rw [hnode]; exact Or.inl rfl) fun _ => hwsr
            · have hfd : (course_rag_node s o.retrieve
                  o.answerability).course_content_found = false := by
                simpa using hfound
              exact inv5_of_false
                (by simp only [step, routeFrom, execNode]; exact hfd) hwsr
          | personalization =>
            have hp := step_post o Node.personalization s (Or.inl rfl) hn
            refine inv5_of_post hp.1 fun hc => ?_
            rw [hp.2.1] at hc
            rw [hp.2.2]
            exact (hinv.2.1 hc).1
          | evaluation =>
            have hp := step_post o Node.evaluation s (Or.inr (Or.inl rfl)) hn
            refine inv5_of_post hp.1 fun hc => ?_
            rw [hp.2.1] at hc
            rw [hp.2.2]
            exact (hinv.2.1 hc).1
          | refinement =>
            have hp := step_post o Node.refinement s
              (Or.inr (Or.inr (Or.inl rfl))) hn
            refine inv5_of_post hp.1 fun hc => ?_
            rw [hp.2.1] at hc
            rw [hp.2.2]
            exact (hinv.2.1 hc).1
        obtain ⟨hmem, hwsr⟩ := ih _ _ hinv' hccf
        refine ⟨?_, hwsr⟩
        intro hin
        rcases List.mem_cons.mp hin with hin | hin
        · exact hws hin.symm
        · exact hmem hin

/-! ### The disclaimer appears iff the third attempt still fails -/

theorem strData_append : ∀ (a b : String), (a ++ b).data = a.data ++ b.data
  | ⟨_⟩, ⟨_⟩ => rfl

/-- Does the stored response start with the disclaimer? -/
def DPrefB : Option String → Bool
  | none => false
  | some r => pyPrefix disclaimerText r

theorem pyPrefix_disclaimer_append (r : String) :
    pyPrefix disclaimerText (disclaimerText ++ r) = true := by
  simp only [pyPrefix, strData_append]
  exact List.isPrefixOf_iff_prefix.mpr (List.prefix_append _ _)

theorem pyPrefix_false_of_head (p q : String) (c d : Char)
    (hp : p.data.head? = some c) (hq : q.data.head? = some d)
    (hne : c ≠ d) : pyPrefix p q = false := by
  cases hpd : p.data with
  | nil => rw [hpd] at hp; cases hp
  | cons a l =>
    cases hqd : q.data with
    | nil => rw [hqd] at hq; cases hq
    | cons b m =>
      rw [hpd] at hp
      rw [hqd] at hq
      simp only [List.head?, Option.some.injEq] at hp hq
      subst hp
      subst hq
      simp [pyPrefix, hpd, hqd, List.isPrefixOf, hne]

theorem disclaimer_head : disclaimerText.data.head? = some 'N' := rfl

theorem pyPrefix_disclaimer_relevanceApology (c r : String) :
    pyPrefix disclaimerText (relevanceApology c r) = false := by
  apply pyPrefix_false_of_head _ _ 'N' 'I' disclaimer_head
  · show (relevanceApology c r).data.head? = some 'I'
    simp only [relevanceApology, strData_append]
    rfl
  · decide

theorem pyPrefix_disclaimer_persApology (q : String) :
    pyPrefix disclaimerText (persApology q) = false := by
  apply pyPrefix_false_of_head _ _ 'N' 'I' disclaimer_head
  · show (persApology q).data.head? = some 'I'
    simp only [persApology, strData_append]
    rfl
  · decide

theorem pyPrefix_disclaimer_empty : pyPrefix disclaimerText "" = false := rfl

/-- Oracle texts that do not start with the disclaimer (every honest
completion-service answer; the disclaimer is only ever written by the
router). -/
def NoDisclaimerOracle (o : TurnOracle) : Prop :=
  (∀ r, o.pers.response = some r → pyPrefix disclaimerText r = false) ∧
  (∀ i t, o.refineLLM i = some t → pyPrefix disclaimerText t = false)

/-- Nodes running before the first evaluation. -/
def PreEval (n : Node) : Prop :=
  n = Node.query_refinement ∨ n = Node.relevance ∨ n = Node.course_rag ∨
    n = Node.web_search ∨ n = Node.personalization

theorem preEval_not_evaluation : ¬ PreEval Node.evaluation := by
  simp [PreEval]

theorem preEval_not_done : ¬ PreEval Node.done := by
  simp [PreEval]

theorem preEval_not_refinement : ¬ PreEval Node.refinement := by
  simp [PreEval]

/-- Invariant: before `END`, the response never starts with the disclaimer
and the attempt counter is in range (still 0 before the first evaluation);
at `END`, the disclaimer prefix is present iff the final evaluation failed
with the counter exhausted at 3. -/
def Inv2 (n : Node) (s : AgentState) : Prop :=
  (n ≠ Node.done →
    DPrefB s.final_response = false ∧ AttRange n s ∧
      (PreEval n → s.refinement_attempts = 0)) ∧
  (n = Node.done →
    (DPrefB s.final_response = true ↔
      (s.evaluation_passed = false ∧ s.refinement_attempts = 3)))

theorem step_inv2 (o : TurnOracle) (ho : NoDisclaimerOracle o) (n : Node)
    (s : AgentState) (hn : n ≠ Node.done) (h : Inv2 n s) :
    Inv2 (step o n s).2 (step o n s).1 := by
  obtain ⟨hD, ⟨ha1, ha2⟩, hz⟩ := h.1 hn
  have hAtt : AttRange (step o n s).2 (step o n s).1 :=
    step_att_range o n s hn ⟨ha1, ha2⟩
  cases n with
  | done => exact absurd rfl hn
  | query_refinement =>
    have h0 := hz (Or.inl rfl)
    have hfr := (query_refinement_node_frame s o.vague).2.2.1
    have hat := query_refinement_node_attempts s o.vague
    constructor
    · intro _
      refine ⟨?_, hAtt, ?_⟩
      · simp only [step, routeFrom, execNode]
        rw [hfr]; exact hD
      · intro _
        simp only [step, routeFrom, execNode]
        rw [hat]; exact h0
    · intro hdone
      simp only [step, routeFrom, execNode] at hdone ⊢
      constructor
      · intro hpre
        rw [hfr] at hpre
        rw [hD] at hpre
        exact absurd hpre (by simp)
      · intro ⟨_, h3⟩
        rw [hat, h0] at h3
        exact absurd h3 (by simp)
  | relevance =>
    have h0 := hz (Or.inr (Or.inl rfl))
    have hat := relevance_node_attempts s o.relevanceLLM
    have hfr := relevance_node_final_response s o.relevanceLLM
    have hDnew : DPrefB (relevance_node s o.relevanceLLM).final_response = false := by
      rw [hfr]
      split
      · exact hD
      · simp only [DPrefB]
        exact pyPrefix_disclaimer_relevanceApology _ _
    constructor
    · intro _
      refine ⟨?_, hAtt, ?_⟩
      · simpa only [step, routeFrom, execNode] using hDnew
      · intro _
        simp only [step, routeFrom, execNode]
        rw [hat]; exact h0
    · intro hdone
      simp only [step, routeFrom, execNode] at hdone ⊢
      constructor
      · intro hpre
        rw [hDnew] at hpre
        exact absurd hpre (by simp)
      · intro ⟨_, h3⟩
        rw [hat, h0] at h3
        exact absurd h3 (by simp)
  | course_rag =>
    have h0 := hz (Or.inr (Or.inr (Or.inl rfl)))
    have hat := course_rag_node_attempts s o.retrieve o.answerability
    have hfr := (course_rag_node_frame s o.retrieve o.answerability).2.1
    constructor
    · intro _
      refine ⟨?_, hAtt, ?_⟩
      · simp only [step, routeFrom, execNode]
        rw [hfr]; exact hD
      · intro _
        simp only [step, routeFrom, execNode]
        rw [hat]; exact h0
    · intro hdone
      exfalso
      simp only [step, routeFrom, execNode, route_after_course_rag] at hdone
      split at hdone <;> simp at hdone
  | web_search =>
    have h0 := hz (Or.inr (Or.inr (Or.inr (Or.inl rfl))))
    have hat := web_search_node_attempts s o.web
    have hfr := (web_search_node_frame s o.web).2.1
    constructor
    · intro _
      refine ⟨?_, hAtt, ?_⟩
      · simp only [step, routeFrom, execNode]
        rw [hfr]; exact hD
      · intro _
        simp only [step, routeFrom, execNode]
        rw [hat]; exact h0
    · intro hdone
      simp [step, routeFrom, execNode] at hdone
  | personalization =>
    have h0 := hz (Or.inr (Or.inr (Or.inr (Or.inr rfl))))
    have hat := personalization_node_attempts s o.pers
    have hDnew : DPrefB (personalization_node s o.pers).final_response = false := by
      rw [personalization_node_final_response]
      simp only [DPrefB]
      match hp : o.pers.response with
      | none => exact pyPrefix_disclaimer_persApology _
      | some r =>
        simp only []
        by_cases hr : (r = "" || pyStrip r = "") = true
        · rw [if_pos hr]
          exact pyPrefix_disclaimer_persApology _
        · rw [if_neg hr]
          exact ho.1 r hp
    constructor
    · intro _
      refine ⟨?_, hAtt, ?_⟩
      · simpa only [step, routeFrom, execNode] using hDnew
      · intro hpre
        exfalso
        simp only [step, routeFrom, execNode] at hpre
        exact preEval_not_evaluation hpre
    · intro hdone
      simp [step, routeFrom, execNode] at hdone
  | evaluation =>
    have hat := evaluation_node_attempts s (o.evalInp s.refinement_attempts)
    have hfr := (evaluation_node_frame s (o.evalInp s.refinement_attempts)).2.2
    by_cases hpassed :
        (evaluation_node s (o.evalInp s.refinement_attempts)).evaluation_passed = true
    · -- passed: route to END with nothing changed
      have hstep : step o Node.evaluation s =
          (evaluation_node s (o.evalInp s.refinement_attempts), Node.done) := by
        simp [step, routeFrom, execNode, route_after_evaluation, hpassed]
      rw [hstep]
      refine ⟨fun hnd => absurd rfl hnd, fun _ => ?_⟩
      constructor
      · intro hpre
        rw [hfr, hD] at hpre
        exact absurd hpre (by simp)
      · intro hh
        rw [hh.1] at hpassed
        exact absurd hpassed (by simp)
    · by_cases hlt :
          (evaluation_node s (o.evalInp s.refinement_attempts)).refinement_attempts < 3
      · -- loop once more
        have hstep : step o Node.evaluation s =
            (evaluation_node s (o.evalInp s.refinement_attempts), Node.refinement) := by
          simp [step, routeFrom, execNode, route_after_evaluation, hpassed, hlt]
        rw [hstep]
        refine ⟨fun _ => ⟨by rw [hfr]; exact hD, ?_, ?_⟩,
          fun hdone => by simp at hdone⟩
        · rw [hstep] at hAtt
          exact hAtt
        · intro hpre
          exact absurd hpre preEval_not_refinement
      · -- exhausted: prepend the disclaimer and end the turn
        have hstep : step o Node.evaluation s =
            ({ evaluation_node s (o.evalInp s.refinement_attempts) with
                final_response :=
                  some (disclaimerText ++
                    (evaluation_node s
                      (o.evalInp s.refinement_attempts)).final_response.getD "") },
             Node.done) := by
          simp [step, routeFrom, execNode, route_after_evaluation, hpassed, hlt]
        rw [hstep]
        refine ⟨fun hnd => absurd rfl hnd, fun _ => ?_⟩
        constructor
        · intro _
          refine ⟨by simpa using hpassed, ?_⟩
          show (evaluation_node s
            (o.evalInp s.refinement_attempts)).refinement_attempts = 3
          rw [hat] at hlt ⊢
          omega
        · intro _
          simp only [DPrefB]
          exact pyPrefix_disclaimer_append _
  | refinement =>
    have hat := refinement_node_attempts s (o.refineLLM s.refinement_attempts)
    have hDnew : DPrefB (refinement_node s
        (o.refineLLM s.refinement_attempts)).final_response = false := by
      rw [refinement_node_final_response]
      simp only [DPrefB]
      match hp : o.refineLLM s.refinement_attempts with
      | some t => exact ho.2 _ t hp
      | none =>
        match hf : s.final_response with
        | none => exact pyPrefix_disclaimer_empty
        | some r =>
          simp only [Option.getD]
          rw [hf] at hD
          simpa [DPrefB] using hD
    constructor
    · intro _
      refine ⟨?_, hAtt, ?_⟩
      · simpa only [step, routeFrom, execNode] using hDnew
      · intro hpre
        exfalso
        simp only [step, routeFrom, execNode] at hpre
        exact preEval_not_evaluation hpre
    · intro hdone
      simp [step, routeFrom, execNode] at hdone

/-- The disclaimer invariant holds at the end of any run started in it. -/
theorem run_inv2 (o : TurnOracle) (ho : NoDisclaimerOracle o) (fuel : Nat)
    (n : Node) (s : AgentState) (h : Inv2 n s) :
    Inv2 (run o fuel n s).node (run o fuel n s).state :=
  run_inv o Inv2 (fun n s hn h => step_inv2 o ho n s hn h) fuel n s h

/-! ### The override chain of query refinement -/

theorem query_refinement_node_is_vague (s : AgentState) (m : VagueResult) :
    (query_refinement_node s m).is_vague =
      (qrOverrides s.query (convHistoryQR s.messages) m).is_vague := by
  simp only [query_refinement_node]
  split <;> rfl

theorem query_refinement_node_follow_ups (s : AgentState) (m : VagueResult) :
    (query_refinement_node s m).follow_up_questions =
      (qrOverrides s.query
        (convHistoryQR s.messages) m).follow_up_questions.take 1 := by
  simp only [query_refinement_node]
  split <;> rfl

/-- Every branch of the override chain yields either the forced
"not vague" result or the untouched model result. -/
theorem qrOverrides_cases (q h : String) (m : VagueResult) :
    qrOverrides q h m = ⟨false, []⟩ ∨ qrOverrides q h m = m := by
  simp only [qrOverrides]
  repeat' split
  all_goals simp

/-- If the override chain left the verdict vague, no override fired and the
model result passed through unchanged. -/
theorem qrOverrides_vague_eq (q h : String) (m : VagueResult)
    (hv : (qrOverrides q h m).is_vague = true) : qrOverrides q h m = m := by
  rcases qrOverrides_cases q h m with hcase | hcase
  · rw [hcase] at hv
    exact absurd hv (by simp)
  · exact hcase

/-- The overrides never force "vague". -/
theorem qrOverrides_not_vague (q h : String) (m : VagueResult)
    (hm : m.is_vague = false) : (qrOverrides q h m).is_vague = false := by
  by_cases hv : (qrOverrides q h m).is_vague = true
  · rw [qrOverrides_vague_eq q h m hv] at hv
    rw [hm] at hv
    exact absurd hv (by simp)
  · simpa using hv

/-- A greeting hit forces "not vague" whatever the model said. -/
theorem qrOverrides_greeting (q h : String) (m : VagueResult)
    (hg : is_greeting (pyStrip (pyLower q)) = true) :
    (qrOverrides q h m).is_vague = false := by
  simp [qrOverrides, hg]

theorem listInfix_of_isPrefixOf {n h : List Char}
    (hp : n.isPrefixOf h = true) : listInfix n h = true := by
  cases h with
  | nil => simpa [listInfix] using hp
  | cons c rest => simp [listInfix, hp]

/-! ## Concrete fixtures used by witnesses and counterexamples -/

/-- A concrete retrieved chunk. -/
def chunkA : Chunk :=
  { content := "Chunk content text", document_name := "Doc1",
    page_number := some 3, score := 9 / 10 }

/-- Fresh first-turn state for a concrete query. -/
def initState0 : AgentState :=
  create_initial_state "What is NeuroQuest?" "Multi Agent Systems" {} []

/-- A concrete oracle: clear query, relevant, no course chunks, web search
returns text, generation succeeds, the answerability and refinement calls
raise. -/
def oracle0 : TurnOracle where
  vague := ⟨false, []⟩
  relevanceLLM := ⟨true, "course related"⟩
  retrieve := fun _ => []
  answerability := none
  web := ⟨"No results found", []⟩
  pers := ⟨some "An answer.", []⟩
  evalInp := fun _ => {}
  refineLLM := fun _ => none

/-- Oracle for a turn where retrieval finds a chunk that answers the
query. -/
def oracleFound : TurnOracle :=
  { oracle0 with retrieve := fun _ => [chunkA], answerability := some true }

/-- Oracle for a web-path turn whose evaluations keep failing and whose
refinement calls return a rewrite. -/
def oracleFail : TurnOracle :=
  { oracle0 with
    web := ⟨"Internet search results: facts.",
            [⟨"Example", "http://example.com/page"⟩]⟩
    refineLLM := fun _ => some "A better answer." }

/-- A state as persisted after a completed first turn: it carries
retrieved chunks and a response history. -/
def prevState3 : AgentState :=
  { create_initial_state "q1" "CourseX" {} [] with
    retrieved_chunks := some [chunkA]
    response_history := [("old answer", 1 / 2)]
    final_response := some "old answer"
    evaluation_passed := true
    refinement_attempts := 1
    a2a_messages := [⟨"query_refinement", "relevance", "query_refined"⟩] }

/-! ## Claims -/

/-- C1.  Within a single turn, `refinement_attempts` starts at 0 (both
state-initialisation paths), every step changes it by exactly the number
of refinement passes executed (one per pass, no other node touches it),
it is monotonically non-decreasing along the turn and never exceeds 3;
the router enters refinement only when it is `< 3`, the machine reaches
`END` within 12 node executions, and at most 3 refinement passes run. -/
theorem C1_refinement_loop_bounded (o : TurnOracle) (s0 : AgentState)
    (h0 : s0.refinement_attempts = 0) :
    (∀ q cn uc ch,
      (create_initial_state q cn uc ch).refinement_attempts = 0) ∧
    (∀ prev q cn uc,
      (mergedTurnState prev q cn uc).refinement_attempts = 0) ∧
    (∀ s l, (refinement_node s l).refinement_attempts =
      s.refinement_attempts + 1) ∧
    (∀ n s, (step o n s).1.refinement_attempts =
      s.refinement_attempts + (if n = Node.refinement then 1 else 0)) ∧
    (∀ s, (route_after_evaluation s).2 = Node.refinement →
      s.refinement_attempts < 3) ∧
    (∀ f f', f ≤ f' →
      (run o f Node.query_refinement s0).state.refinement_attempts ≤
        (run o f' Node.query_refinement s0).state.refinement_attempts) ∧
    (∀ f, (run o f Node.query_refinement s0).state.refinement_attempts ≤ 3) ∧
    (∀ f, (run o f Node.query_refinement s0).trace.count Node.refinement ≤ 3) ∧
    (run o 12 Node.query_refinement s0).node = Node.done := by
  have hrange : ∀ f,
      (run o f Node.query_refinement s0).state.refinement_attempts ≤ 3 :=
    fun f =>
      (run_inv o AttRange (fun n s hn h => step_att_range o n s hn h) f
        Node.query_refinement s0 ⟨by omega, by simp⟩).1
  refine ⟨fun _ _ _ _ => rfl, fun _ _ _ _ => rfl, fun s l => rfl,
    step_attempts o, ?_, ?_, hrange, ?_, qr_term o s0⟩
  · intro s h
    simp only [route_after_evaluation] at h
    split at h
    · simp at h
    · split at h
      next hlt => exact hlt
      next => simp at h
  · intro f f' hle
    obtain ⟨d, rfl⟩ := Nat.exists_eq_add_of_le hle
    have hcount := run_attempts_count o d
      (run o f Node.query_refinement s0).node
      (run o f Node.query_refinement s0).state
    rw [run_add]
    simp only []
    rw [hcount]
    exact Nat.le_add_right _ _
  · intro f
    have hc := run_attempts_count o f Node.query_refinement s0
    have h3 := hrange f
    omega

/-- C1 witness: a concrete turn starting at 0 attempts reaches `END`. -/
theorem C1_witness :
    initState0.refinement_attempts = 0 ∧
    (run oracle0 12 Node.query_refinement initState0).node = Node.done :=
  ⟨rfl, (C1_refinement_loop_bounded oracle0 initState0 rfl).2.2.2.2.2.2.2.2⟩

/-- C3.  The merge built by `process_query` for a follow-up turn resets
most per-turn fields and preserves the message and A2A history, but its
update dict omits `retrieved_chunks` and `response_history`: both keep the
previous turn's values instead of being reset to their fresh-state values
(`None` / `[]`).  Evaluated at a concrete previous state carrying data in
both fields. -/
theorem C3_merged_turn_state_keeps_stale_fields :
    -- the stale fields survive the "reset"
    (mergedTurnState prevState3 "q2" "CourseX" {}).retrieved_chunks =
      some [chunkA] ∧
    (mergedTurnState prevState3 "q2" "CourseX" {}).response_history =
      [("old answer", 1 / 2)] ∧
    -- while a fresh state initialises them differently
    (create_initial_state "q2" "CourseX" {} []).retrieved_chunks = none ∧
    (create_initial_state "q2" "CourseX" {} []).response_history = [] ∧
    -- the fields the dict does list are reset to their fresh values
    (mergedTurnState prevState3 "q2" "CourseX" {}).is_vague = false ∧
    (mergedTurnState prevState3 "q2" "CourseX" {}).follow_up_questions = [] ∧
    (mergedTurnState prevState3 "q2" "CourseX" {}).is_relevant = false ∧
    (mergedTurnState prevState3 "q2" "CourseX" {}).relevance_reason = none ∧
    (mergedTurnState prevState3 "q2" "CourseX" {}).course_content_found = false ∧
    (mergedTurnState prevState3 "q2" "CourseX" {}).course_context = none ∧
    (mergedTurnState prevState3 "q2" "CourseX" {}).course_citations = [] ∧
    (mergedTurnState prevState3 "q2" "CourseX" {}).web_search_results = none ∧
    (mergedTurnState prevState3 "q2" "CourseX" {}).web_search_citations = [] ∧
    (mergedTurnState prevState3 "q2" "CourseX" {}).final_response = none ∧
    (mergedTurnState prevState3 "q2" "CourseX" {}).response_citations = [] ∧
    (mergedTurnState prevState3 "q2" "CourseX" {}).evaluation_scores = none ∧
    (mergedTurnState prevState3 "q2" "CourseX" {}).evaluation_passed = false ∧
    (mergedTurnState prevState3 "q2" "CourseX" {}).refinement_attempts = 0 ∧
    -- and history is preserved, with the new user message appended
    (mergedTurnState prevState3 "q2" "CourseX" {}).messages =
      prevState3.messages ++ [⟨Role.human, "q2"⟩] ∧
    (mergedTurnState prevState3 "q2" "CourseX" {}).a2a_messages =
      prevState3.a2a_messages := by
  refine ⟨rfl, rfl, rfl, rfl, rfl, rfl, rfl, rfl, rfl, rfl, rfl, rfl, rfl,
    rfl, rfl, rfl, rfl, rfl, rfl, rfl⟩

/-- C5.  A turn that starts with the per-turn reset (`course_content_found
= false`, `web_search_results = None`) and ends with
`course_content_found = true` never executed the web-search node and ends
with `web_search_results` still `None`; moreover the router sends any
state with the flag up straight to personalization. -/
theorem C5_course_found_never_web_search (o : TurnOracle) (s0 : AgentState)
    (h1 : s0.course_content_found = false)
    (h2 : s0.web_search_results = none) (fuel : Nat) :
    (∀ s, s.course_content_found = true →
      route_after_course_rag s = Node.personalization) ∧
    ((run o fuel Node.query_refinement s0).state.course_content_found = true →
      Node.web_search ∉ (run o fuel Node.query_refinement s0).trace ∧
      (run o fuel Node.query_refinement s0).state.web_search_results = none) := by
  refine ⟨fun s h => by simp [route_after_course_rag, h], ?_⟩
  exact run_c5 o fuel Node.query_refinement s0 (inv5_of_false h1 h2)

/-- A state as `route_after_evaluation` sees it after the third refinement
attempt has failed evaluation. -/
def exhaustedState : AgentState :=
  { initState0 with
    evaluation_passed := false
    refinement_attempts := 3
    final_response := some "ANSWER" }

/-- C2 counterexample: on the exhausted branch the router writes
`disclaimer + final_response`, i.e. it prepends the disclaimer; the
claimed "appended to final_response" (old response followed by the
disclaimer) is false at this concrete state. -/
theorem C2_counterexample :
    (route_after_evaluation exhaustedState).2 = Node.done ∧
    (route_after_evaluation exhaustedState).1.final_response =
      some (disclaimerText ++ "ANSWER") ∧
    ¬((route_after_evaluation exhaustedState).1.final_response =
      some ("ANSWER" ++ disclaimerText)) := by
  refine ⟨rfl, rfl, ?_⟩
  decide

/-- C2 (amended: the disclaimer is prepended, not appended).  When the
router runs on a failed evaluation with `refinement_attempts ≥ 3` it
prefixes the disclaimer onto `final_response` and ends the turn; and over
a whole turn started from reset state (counter 0, not passed, no
disclaimer prefix), with oracle answers that never start with the
disclaimer themselves, the final response starts with the disclaimer iff
the turn ended with a failed evaluation at exactly 3 attempts — i.e. iff
the third refinement attempt still failed evaluation. -/
theorem C2_disclaimer_prepended_iff_third_attempt_fails (o : TurnOracle)
    (ho : NoDisclaimerOracle o) (s0 : AgentState)
    (h0 : s0.refinement_attempts = 0)
    (h2 : DPrefB s0.final_response = false) :
    (∀ s, s.evaluation_passed = false → ¬s.refinement_attempts < 3 →
      route_after_evaluation s =
        ({ s with
            final_response :=
              some (disclaimerText ++ s.final_response.getD "") },
         Node.done)) ∧
    (run o 12 Node.query_refinement s0).node = Node.done ∧
    (DPrefB (run o 12 Node.query_refinement s0).state.final_response = true ↔
      ((run o 12 Node.query_refinement s0).state.evaluation_passed = false ∧
        (run o 12 Node.query_refinement s0).state.refinement_attempts = 3)) := by
  refine ⟨?_, qr_term o s0, ?_⟩
  · intro s hp hl
    simp [route_after_evaluation, hp, hl]
  · have hinv := run_inv2 o ho 12 Node.query_refinement s0
      ⟨fun _ => ⟨h2, ⟨by omega, by simp⟩, fun _ => h0⟩,
       fun hd => by simp at hd⟩
    exact hinv.2 (qr_term o s0)

theorem noDisclaimer_oracleFail : NoDisclaimerOracle oracleFail := by
  constructor
  · intro r h
    have h' : (some "An answer." : Option String) = some r := h
    injection h' with hr
    rw [← hr]
    decide
  · intro i t h
    have h' : (some "A better answer." : Option String) = some t := h
    injection h' with ht
    rw [← ht]
    decide

/-- C2 witness: a concrete reset start state and an oracle whose texts do
not start with the disclaimer. -/
theorem C2_witness :
    NoDisclaimerOracle oracleFail ∧
    initState0.refinement_attempts = 0 ∧
    DPrefB initState0.final_response = false ∧
    (DPrefB (run oracleFail 12 Node.query_refinement
        initState0).state.final_response = true ↔
      ((run oracleFail 12 Node.query_refinement
          initState0).state.evaluation_passed = false ∧
        (run oracleFail 12 Node.query_refinement
          initState0).state.refinement_attempts = 3)) :=
  ⟨noDisclaimer_oracleFail, rfl, rfl,
   (C2_disclaimer_prepended_iff_third_attempt_fails oracleFail
      noDisclaimer_oracleFail initState0 rfl rfl).2.2⟩

/-- Fresh state whose query defeats every "clear query" override. -/
def opaqueQueryState : AgentState :=
  create_initial_state "zzzz vvvv" "CourseX" {} []

/-- Oracle whose vagueness model says "vague" with one follow-up. -/
def oracleVague : TurnOracle :=
  { oracle0 with vague := ⟨true, ["Which topic do you mean?"]⟩ }

/-- C4 counterexample: the model may classify a query as vague while
returning an empty follow-up list; the stage then halts exposing zero
follow-up questions, so "exactly one follow-up question" is false. -/
theorem C4_counterexample :
    (query_refinement_node opaqueQueryState
      (⟨true, []⟩ : VagueResult)).is_vague = true ∧
    ¬((query_refinement_node opaqueQueryState
      (⟨true, []⟩ : VagueResult)).follow_up_questions.length = 1) := by
  decide

/-- C4 (amended: at most one follow-up question — the model's list
truncated to its first element, which is empty when the model returned
none).  When the stage's final verdict is vague, the stored follow-ups are
the model list truncated to one element, the router ends the turn, and the
turn's trace is exactly the query-refinement node: no relevance,
retrieval, web-search, personalization or evaluation stage runs. -/
theorem C4_vague_halts_with_truncated_follow_up (o : TurnOracle)
    (s0 : AgentState) (fuel : Nat) (hf : 1 ≤ fuel)
    (hv : (query_refinement_node s0 o.vague).is_vague = true) :
    (query_refinement_node s0 o.vague).follow_up_questions =
      o.vague.follow_up_questions.take 1 ∧
    (query_refinement_node s0 o.vague).follow_up_questions.length ≤ 1 ∧
    route_after_query_refinement (query_refinement_node s0 o.vague) =
      Node.done ∧
    (run o fuel Node.query_refinement s0).trace = [Node.query_refinement] ∧
    (run o fuel Node.query_refinement s0).state =
      query_refinement_node s0 o.vague ∧
    (run o fuel Node.query_refinement s0).node = Node.done := by
  have hveq : (qrOverrides s0.query (convHistoryQR s0.messages)
      o.vague).is_vague = true := by
    rw [← query_refinement_node_is_vague]
    exact hv
  have hfueq := query_refinement_node_follow_ups s0 o.vague
  have hqeq := qrOverrides_vague_eq _ _ _ hveq
  have hroute : route_after_query_refinement
      (query_refinement_node s0 o.vague) = Node.done := by
    simp [route_after_query_refinement, hv]
  have hstep : step o Node.query_refinement s0 =
      (query_refinement_node s0 o.vague, Node.done) := by
    simp only [step, routeFrom, execNode]
    rw [hroute]
  obtain ⟨f, rfl⟩ : ∃ f, fuel = f + 1 :=
    ⟨fuel - 1, by omega⟩
  rw [run_succ o f Node.query_refinement s0 (by simp), hstep]
  refine ⟨by rw [hfueq, hqeq], ?_, hroute, by simp [run_done],
    by simp [run_done], by simp [run_done]⟩
  rw [hfueq]
  simp [List.length_take]

/-- C4 witness: a vague verdict on an opaque query halts the turn with the
single truncated follow-up. -/
theorem C4_witness :
    (query_refinement_node opaqueQueryState oracleVague.vague).is_vague = true ∧
    (query_refinement_node opaqueQueryState
        oracleVague.vague).follow_up_questions =
      oracleVague.vague.follow_up_questions.take 1 ∧
    (run oracleVague 1 Node.query_refinement opaqueQueryState).trace =
      [Node.query_refinement] :=
  ⟨by decide,
   (C4_vague_halts_with_truncated_follow_up oracleVague opaqueQueryState 1
      (by omega) (by decide)).1,
   (C4_vague_halts_with_truncated_follow_up oracleVague opaqueQueryState 1
      (by omega) (by decide)).2.2.2.1⟩

/-- C9 counterexample: the greeting heuristic is a substring test, not an
exact/prefix match.  "architecture" neither equals nor begins with any
greeting of the fixed list, yet the heuristic fires (it contains "hi") and
overrides a vague model verdict to not-vague. -/
theorem C9_counterexample :
    is_greeting (pyStrip (pyLower "architecture")) = true ∧
    (greetings.all fun g =>
      !(decide ("architecture" = g) || pyPrefix g "architecture")) = true ∧
    (query_refinement_node (create_initial_state "architecture" "CourseX" {} [])
      (⟨true, ["What do you mean?"]⟩ : VagueResult)).is_vague = false := by
  decide

/-- C9 (amended: the greeting heuristic fires exactly when some entry of
the fixed greeting list occurs as a substring of the lowercased stripped
query — this includes every exact and prefix match but also interior
occurrences).  Every exact or prefix match fires the heuristic; a firing
heuristic forces `is_vague = false` whatever the model said; the override
chain never forces the reverse direction. -/
theorem C9_greeting_override_substring (s : AgentState) (m : VagueResult) :
    (∀ g ∈ greetings, ∀ q : String,
      q = g ∨ pyPrefix g q = true → is_greeting q = true) ∧
    (is_greeting (pyStrip (pyLower s.query)) = true →
      (query_refinement_node s m).is_vague = false) ∧
    (m.is_vague = false → (query_refinement_node s m).is_vague = false) ∧
    ((query_refinement_node s m).is_vague = true → m.is_vague = true) := by
  refine ⟨?_, ?_, ?_, ?_⟩
  · intro g hg q hq
    have hin : pyIn g q = true := by
      rcases hq with hq | hq
      · subst hq
        exact listInfix_of_isPrefixOf
          (List.isPrefixOf_iff_prefix.mpr (List.prefix_refl _))
      · exact listInfix_of_isPrefixOf hq
    simp only [is_greeting, List.any_eq_true]
    exact ⟨g, hg, hin⟩
  · intro hg
    rw [query_refinement_node_is_vague]
    exact qrOverrides_greeting _ _ _ hg
  · intro hm
    rw [query_refinement_node_is_vague]
    exact qrOverrides_not_vague _ _ _ hm
  · intro hv
    rw [query_refinement_node_is_vague] at hv
    have := qrOverrides_vague_eq _ _ _ hv
    rw [this] at hv
    exact hv

/-- C9 witness: a prefix match ("hi there") fires the heuristic and forces
a vague model verdict to not-vague. -/
theorem C9_witness :
    is_greeting "hi there" = true ∧
    (query_refinement_node (create_initial_state "hi there" "CourseX" {} [])
      (⟨true, ["Huh?"]⟩ : VagueResult)).is_vague = false :=
  ⟨(C9_greeting_override_substring
      (create_initial_state "hi there" "CourseX" {} [])
      (⟨true, ["Huh?"]⟩ : VagueResult)).1 "hi" (by decide) "hi there"
      (Or.inr (by decide)),
   (C9_greeting_override_substring
      (create_initial_state "hi there" "CourseX" {} [])
      (⟨true, ["Huh?"]⟩ : VagueResult)).2.1 (by decide)⟩

/-- C5 witness: a concrete reset start state with a chunk-finding oracle. -/
theorem C5_witness :
    initState0.course_content_found = false ∧
    initState0.web_search_results = none ∧
    ((run oracleFound 12 Node.query_refinement
        initState0).state.course_content_found = true →
      Node.web_search ∉
        (run oracleFound 12 Node.query_refinement initState0).trace ∧
      (run oracleFound 12 Node.query_refinement
        initState0).state.web_search_results = none) :=
  ⟨rfl, rfl,
   (C5_course_found_never_web_search oracleFound initState0 rfl rfl 12).2⟩

/-- C6.  The overall evaluation score is the stated weighted sum of the
component metrics — `0.35·relevance + 0.25·readability + 0.2·coherence +
0.2·coverage` for course-sourced answers and `0.3·relevance +
0.2·readability + 0.15·coherence + 0.15·coverage + 0.1·credibility +
0.05·consensus + 0.05·consistency` for web-sourced ones — and
`evaluation_passed` is set true iff the stored overall score is ≥ 0.70. -/
theorem C6_overall_weights_and_threshold :
    (∀ (inp : EvalInp) (q a : String),
      scoresGet (evaluate_course_response inp q a) "overall" 0 =
        35 / 100 * scoresGet (evaluate_course_response inp q a) "relevance" 0 +
        25 / 100 * scoresGet (evaluate_course_response inp q a) "readability" 0 +
        2 / 10 * scoresGet (evaluate_course_response inp q a) "coherence" 0 +
        2 / 10 * scoresGet (evaluate_course_response inp q a) "coverage" 0) ∧
    (∀ (inp : EvalInp) (q a : String) (ws : List WebCitation),
      scoresGet (evaluate_web_response inp q a ws) "overall" 0 =
        3 / 10 * scoresGet (evaluate_web_response inp q a ws) "relevance" 0 +
        2 / 10 * scoresGet (evaluate_web_response inp q a ws) "readability" 0 +
        15 / 100 * scoresGet (evaluate_web_response inp q a ws) "coherence" 0 +
        15 / 100 * scoresGet (evaluate_web_response inp q a ws) "coverage" 0 +
        1 / 10 * scoresGet (evaluate_web_response inp q a ws) "credibility" 0 +
        5 / 100 * scoresGet (evaluate_web_response inp q a ws) "consensus" 0 +
        5 / 100 * scoresGet (evaluate_web_response inp q a ws) "consistency" 0) ∧
    (∀ (s : AgentState) (inp : EvalInp),
      (evaluation_node s inp).evaluation_passed = true ↔
        7 / 10 ≤ scoresGet
          ((evaluation_node s inp).evaluation_scores.getD []) "overall" 0) := by
  refine ⟨?_, ?_, ?_⟩
  · intro inp q a
    by_cases hf : inp.failed = true
    · simp [evaluate_course_response, hf, scoresGet]
      norm_num
    · simp only [evaluate_course_response, hf, Bool.false_eq_true, if_neg,
        if_false]
      simp [scoresGet, weighted_sum]
      ring_nf
  · intro inp q a ws
    by_cases hf : inp.failed = true
    · simp [evaluate_web_response, hf, scoresGet]
      norm_num
    · simp only [evaluate_web_response, hf, Bool.false_eq_true, if_neg,
        if_false]
      simp [scoresGet, weighted_sum]
      ring_nf
  · intro s inp
    simp only [evaluation_node]
    split
    · simp [scoresGet]
    · simp [scoresGet, decide_eq_true_iff]

/-! ### Metric ranges (C7) -/

theorem meanD_mem (l : List ℚ) (lo hi d : ℚ)
    (h : ∀ x ∈ l, lo ≤ x ∧ x ≤ hi) (hd : lo ≤ d ∧ d ≤ hi) :
    lo ≤ meanD l d ∧ meanD l d ≤ hi := by
  by_cases hl : l = []
  · simpa [meanD, hl] using hd
  · have hlen : (0 : ℚ) < l.length := by
      have := List.length_pos.mpr hl
      exact_mod_cast this
    have hsum_le : l.sum ≤ (l.length : ℚ) * hi := by
      calc l.sum ≤ l.length • hi :=
            List.sum_le_card_nsmul l hi fun x hx => (h x hx).2
        _ = (l.length : ℚ) * hi := by rw [nsmul_eq_mul]
    have hle_sum : (l.length : ℚ) * lo ≤ l.sum := by
      calc (l.length : ℚ) * lo = l.length • lo := by rw [nsmul_eq_mul]
        _ ≤ l.sum := List.card_nsmul_le_sum l lo fun x hx => (h x hx).1
    constructor
    · rw [meanD, if_neg hl, le_div_iff₀ hlen]
      linarith
    · rw [meanD, if_neg hl, div_le_iff₀ hlen]
      linarith

theorem clip_mem (x lo hi : ℚ) (h : lo ≤ hi) :
    lo ≤ clip x lo hi ∧ clip x lo hi ≤ hi := by
  constructor
  · exact le_max_left _ _
  · exact max_le h (min_le_right _ _)

theorem clip01_mem (x : ℚ) : 0 ≤ clip x 0 1 ∧ clip x 0 1 ≤ 1 :=
  clip_mem x 0 1 (by norm_num)

theorem normalizeQ_mem (x a b : ℚ) :
    0 ≤ normalizeQ x a b ∧ normalizeQ x a b ≤ 1 := by
  rw [normalizeQ]
  split
  · norm_num
  · exact clip01_mem _

theorem inv_normalize_mem (x a b : ℚ) :
    0 ≤ inv_normalize x a b ∧ inv_normalize x a b ≤ 1 := by
  have := normalizeQ_mem x a b
  rw [inv_normalize]
  constructor <;> linarith [this.1, this.2]

theorem fluencyScore_mem (fl : FluencyInput) :
    0 ≤ fluencyScore fl ∧ fluencyScore fl ≤ 1 := by
  cases fl with
  | noSentences => norm_num [fluencyScore]
  | fromLengths mp cv =>
    cases mp with
    | false => norm_num [fluencyScore]
    | true => simpa [fluencyScore] using inv_normalize_mem cv 0 1

theorem weighted_sum_two (a b w1 w2 : ℚ) :
    weighted_sum [a, b] [w1, w2] = a * w1 + b * w2 := by
  simp [weighted_sum]

theorem relevance_score_mem (validEmb : Bool) (qa : ℚ) (acs : List ℚ)
    (hqa : -1 ≤ qa ∧ qa ≤ 1) (hacs : ∀ x ∈ acs, -1 ≤ x ∧ x ≤ 1) :
    -1 ≤ relevance_score validEmb qa acs ∧
      relevance_score validEmb qa acs ≤ 1 := by
  cases validEmb with
  | false => norm_num [relevance_score]
  | true =>
    have hcalc : relevance_score true qa acs =
        qa * (7 / 10) + meanD acs 0 * (3 / 10) := by
      simp [relevance_score, weighted_sum_two]
    have hm := meanD_mem acs (-1) 1 0 hacs (by norm_num)
    rw [hcalc]
    constructor
    · linarith [hqa.1, hm.1]
    · linarith [hqa.2, hm.2]

theorem coherence_fluency_mem (nE : Nat) (sims : List ℚ) (fl : FluencyInput)
    (hsims : ∀ x ∈ sims, -1 ≤ x ∧ x ≤ 1) :
    -1 ≤ coherence_fluency nE sims fl ∧ coherence_fluency nE sims fl ≤ 1 := by
  by_cases hn : nE < 2
  · norm_num [coherence_fluency, hn]
  · have hcalc : coherence_fluency nE sims fl =
        meanD sims 0 * (7 / 10) + fluencyScore fl * (3 / 10) := by
      simp [coherence_fluency, hn, weighted_sum_two]
    have hm := meanD_mem sims (-1) 1 0 hsims (by norm_num)
    have hf := fluencyScore_mem fl
    rw [hcalc]
    constructor
    · linarith [hm.1, hf.1]
    · linarith [hm.2, hf.2]

theorem readability_complexity_mem (text : String) (g : Option ℚ) :
    0 ≤ readability_complexity text g ∧ readability_complexity text g ≤ 1 := by
  by_cases ht : pyStrip text = ""
  · norm_num [readability_complexity, ht]
  · match g with
    | none => norm_num [readability_complexity, ht]
    | some gv => simpa [readability_complexity, ht] using clip01_mem gv

theorem wordOverlap_mem (q a : String) :
    0 ≤ wordOverlap q a ∧ wordOverlap q a ≤ 1 := by
  rw [wordOverlap]
  constructor
  · apply le_min
    · positivity
    · norm_num
  · exact min_le_right _ _

theorem coverageFold_mem (partSim : Nat → SimCase) (answer : String) :
    ∀ (l : List (Nat × String)) (acc : List ℚ),
      (∀ x ∈ acc, 0 ≤ x ∧ x ≤ 1) →
      ∀ x ∈ l.foldl (coverageStep partSim answer) acc, 0 ≤ x ∧ x ≤ 1 := by
  intro l
  induction l with
  | nil => intro acc hacc x hx; exact hacc x hx
  | cons p rest ih =>
    intro acc hacc x hx
    rw [List.foldl_cons] at hx
    apply ih (coverageStep partSim answer acc p) ?_ x hx
    intro y hy
    cases hcase : partSim p.1 with
    | valid sim =>
      simp only [coverageStep, hcase] at hy
      split at hy
      next hgt =>
        rcases List.mem_append.mp hy with hy | hy
        · exact hacc y hy
        · have hyy : y = min sim 1 := by simpa using hy
          subst hyy
          constructor
          · have hs : (0 : ℚ) ≤ sim := by linarith
            exact le_min hs (by norm_num)
          · exact min_le_right _ _
      next => exact hacc y hy
    | invalidEmb =>
      simp only [coverageStep, hcase] at hy
      split at hy
      · rcases List.mem_append.mp hy with hy | hy
        · exact hacc y hy
        · have hyy : y = 7 / 10 := by simpa using hy
          subst hyy
          norm_num
      · exact hacc y hy
    | nanSim =>
      simp only [coverageStep, hcase] at hy
      exact hacc y hy

theorem coverage_mem (partSim : Nat → SimCase) (mainSim : Option ℚ)
    (q a : String) (parts : List String) :
    0 ≤ coverage partSim mainSim q a parts ∧
      coverage partSim mainSim q a parts ≤ 1 := by
  rw [coverage.eq_def]
  split
  · norm_num
  · split
    · match mainSim with
      | none => exact wordOverlap_mem q a
      | some s => exact clip01_mem s
    · have hb := coverageFold_mem partSim a parts.enum [] (by simp)
      show (0 ≤ if List.foldl (coverageStep partSim a) [] parts.enum = []
            then (0 : ℚ)
            else meanD (List.foldl (coverageStep partSim a) [] parts.enum) 0) ∧
        (if List.foldl (coverageStep partSim a) [] parts.enum = []
            then (0 : ℚ)
            else meanD (List.foldl (coverageStep partSim a) [] parts.enum) 0) ≤ 1
      split
      · norm_num
      · exact meanD_mem _ 0 1 0 hb (by norm_num)

/-- C7 counterexample: for adversarial embedding vectors with negative
cosine similarity the relevance metric leaves [0,1].  The similarity −1 is
realised by the one-dimensional vectors [1] and [−1] (witnessed through
`IsCosSim`), and `relevance_score` then returns −1 < 0, refuting
"relevance ∈ [0,1] for arbitrary vectors returned by the embedding
service". -/
theorem C7_counterexample :
    IsCosSim [(1 : ℚ)] [(-1 : ℚ)] (-1) ∧
    IsCosSim [(-1 : ℚ)] [(1 : ℚ)] (-1) ∧
    relevance_score true (-1) [(-1)] = -1 ∧
    ¬(0 ≤ relevance_score true (-1) [(-1)]) := by
  have hval : relevance_score true (-1 : ℚ) [(-1)] = -1 := by
    simp [relevance_score, weighted_sum_two, meanD]
    norm_num
  refine ⟨?_, ?_, hval, ?_⟩
  · refine ⟨by norm_num [normSqQ, dotQ], by norm_num [normSqQ, dotQ], ?_, ?_⟩
    · norm_num [normSqQ, dotQ]
    · norm_num [dotQ]
  · refine ⟨by norm_num [normSqQ, dotQ], by norm_num [normSqQ, dotQ], ?_, ?_⟩
    · norm_num [normSqQ, dotQ]
    · norm_num [dotQ]
  · rw [hval]
    norm_num

/-- C7 (amended: coverage and readability do lie in [0,1] for all inputs,
but relevance and coherence are only guaranteed to lie in [−1,1] — with
negative cosine similarities they can be negative, as the counterexample
shows; they lie in [0,1] only when all the cosine similarities involved
are nonnegative). -/
theorem C7_metric_ranges (text : String) (g : Option ℚ)
    (partSim : Nat → SimCase) (mainSim : Option ℚ) (q a : String)
    (parts : List String) (validEmb : Bool) (qa : ℚ) (acs : List ℚ)
    (nE : Nat) (sims : List ℚ) (fl : FluencyInput)
    (hqa : -1 ≤ qa ∧ qa ≤ 1) (hacs : ∀ x ∈ acs, -1 ≤ x ∧ x ≤ 1)
    (hsims : ∀ x ∈ sims, -1 ≤ x ∧ x ≤ 1) :
    (0 ≤ readability_complexity text g ∧
      readability_complexity text g ≤ 1) ∧
    (0 ≤ coverage partSim mainSim q a parts ∧
      coverage partSim mainSim q a parts ≤ 1) ∧
    (-1 ≤ relevance_score validEmb qa acs ∧
      relevance_score validEmb qa acs ≤ 1) ∧
    (-1 ≤ coherence_fluency nE sims fl ∧
      coherence_fluency nE sims fl ≤ 1) :=
  ⟨readability_complexity_mem text g,
   coverage_mem partSim mainSim q a parts,
   relevance_score_mem validEmb qa acs hqa hacs,
   coherence_fluency_mem nE sims fl hsims⟩

/-- C7 witness: the range bounds instantiated at concrete metric inputs. -/
theorem C7_witness :
    ((-1 : ℚ) ≤ 0 ∧ (0 : ℚ) ≤ 1) ∧
    ((0 ≤ readability_complexity "Some answer text." (some (1 / 2)) ∧
      readability_complexity "Some answer text." (some (1 / 2)) ≤ 1) ∧
    (0 ≤ coverage (fun _ => SimCase.nanSim) none "q" "a" [] ∧
      coverage (fun _ => SimCase.nanSim) none "q" "a" [] ≤ 1) ∧
    (-1 ≤ relevance_score true 0 [] ∧ relevance_score true 0 [] ≤ 1) ∧
    (-1 ≤ coherence_fluency 0 [] FluencyInput.noSentences ∧
      coherence_fluency 0 [] FluencyInput.noSentences ≤ 1)) :=
  ⟨⟨by norm_num, by norm_num⟩,
   C7_metric_ranges "Some answer text." (some (1 / 2))
     (fun _ => SimCase.nanSim) none "q" "a" [] true 0 [] 0 []
     FluencyInput.noSentences ⟨by norm_num, by norm_num⟩ (by simp) (by simp)⟩

/-! ### The answerability gate (C8) -/

theorem char_mem_dropWhile {p : Char → Bool} {c : Char} {l : List Char}
    (hc : c ∈ l) (hp : p c = false) : c ∈ l.dropWhile p := by
  induction l with
  | nil => cases hc
  | cons a l ih =>
    by_cases hpa : p a = true
    · rw [List.dropWhile_cons_of_pos hpa]
      rcases List.mem_cons.mp hc with rfl | hmem
      · rw [hp] at hpa
        cases hpa
      · exact ih hmem
    · rw [List.dropWhile_cons_of_neg (by simpa using hpa)]
      exact hc

theorem pyStrip_ne_empty {s : String} {c : Char} (hc : c ∈ s.data)
    (hp : isPySpace c = false) : pyStrip s ≠ "" := by
  intro h
  have hdata : dropTrailing isPySpace (s.data.dropWhile isPySpace) = [] := by
    have := congrArg String.data h
    simpa [pyStrip] using this
  have h1 : (s.data.dropWhile isPySpace).reverse.dropWhile isPySpace = [] := by
    have := congrArg List.reverse hdata
    simpa [dropTrailing] using this
  have h2 : ∀ x ∈ (s.data.dropWhile isPySpace).reverse,
      isPySpace x = true := List.dropWhile_eq_nil_iff.mp h1
  have h3 : c ∈ s.data.dropWhile isPySpace := char_mem_dropWhile hc hp
  have h4 := h2 c (List.mem_reverse.mpr h3)
  rw [hp] at h4
  cases h4

theorem char_mem_chunkSource (i : Nat) (r : Chunk) :
    '[' ∈ (chunkSource i r).data := by
  rw [chunkSource]
  simp only [strData_append]
  exact List.mem_append_left _ (List.mem_append_left _
    (List.mem_append_left _ (List.mem_append_left _
      (List.mem_append_left _ (List.mem_append_left _ (by decide))))))

theorem char_mem_format_context {R : List Chunk} (hR : R ≠ []) :
    '[' ∈ (format_context R).data := by
  obtain ⟨r, rest, rfl⟩ := List.exists_cons_of_ne_nil hR
  rw [format_context, if_neg (by simp)]
  have henum : (List.enumFrom 1 (r :: rest)).map (fun p => chunkSource p.1 p.2) =
      chunkSource 1 r ::
        (List.enumFrom 2 rest).map (fun p => chunkSource p.1 p.2) := by
    simp [List.enumFrom]
  rw [henum]
  cases hm : (List.enumFrom 2 rest).map (fun p => chunkSource p.1 p.2) with
  | nil =>
    rw [joinSep]
    exact char_mem_chunkSource 1 r
  | cons x xs =>
    rw [joinSep]
    simp only [strData_append]
    exact List.mem_append_left _ (List.mem_append_left _
      (char_mem_chunkSource 1 r))

theorem format_context_strip_ne {R : List Chunk} (hR : R ≠ []) :
    pyStrip (format_context R) ≠ "" :=
  pyStrip_ne_empty (char_mem_format_context hR) (by decide)

/-- C8.  In course retrieval, whenever the final retrieved-chunk list is
non-empty (the result dict carries the `retrieved_chunks` key): a
temporal-currency cue in the query forces `found = false` regardless of
the answerability classifier's outcome, and without such a cue an erroring
answerability call (`answerLLM = none`) defaults `found` to `true` (course
content is used rather than escalating to web search). -/
theorem C8_currency_override_and_error_default
    (retrieve : String → List Chunk) (answerLLM : Option Bool)
    (q cn : String)
    (h : (retrieve_and_check retrieve answerLLM q cn 10).retrieved_chunks ≠
      none) :
    (needs_current_info q = true →
      (retrieve_and_check retrieve answerLLM q cn 10).found = false) ∧
    (needs_current_info q = false → answerLLM = none →
      (retrieve_and_check retrieve answerLLM q cn 10).found = true) := by
  simp only [retrieve_and_check] at h ⊢
  by_cases hR : ragChunks retrieve q cn 10 = []
  · rw [if_pos hR] at h
    exact absurd rfl h
  · rw [if_neg hR]
    constructor
    · intro hcur
      simp [hcur, hR]
    · intro hcur ha
      subst ha
      simp [hcur, hR, check_answerability, format_context_strip_ne hR]

/-- C8 witness: a concrete retrieval returning one chunk, under a
currency-cue query (forced to web fallback) and under a neutral query with
an erroring answerability call (defaulted to course content). -/
theorem C8_witness :
    (retrieve_and_check (fun _ => [chunkA]) none "latest news" "CourseX"
      10).retrieved_chunks ≠ none ∧
    needs_current_info "latest news" = true ∧
    (retrieve_and_check (fun _ => [chunkA]) none "latest news" "CourseX"
      10).found = false ∧
    (retrieve_and_check (fun _ => [chunkA]) none "topic overview" "CourseX"
      10).retrieved_chunks ≠ none ∧
    needs_current_info "topic overview" = false ∧
    (retrieve_and_check (fun _ => [chunkA]) none "topic overview" "CourseX"
      10).found = true :=
  ⟨by decide, by decide,
   (C8_currency_override_and_error_default (fun _ => [chunkA]) none
      "latest news" "CourseX" (by decide)).1 (by decide),
   by decide, by decide,
   (C8_currency_override_and_error_default (fun _ => [chunkA]) none
      "topic overview" "CourseX" (by decide)).2 (by decide) rfl⟩

/-! ### Refinement-call failures keep the answer (C10) -/

theorem refinement_node_none (s : AgentState) :
    refinement_node s none =
      { s with
        final_response := some (s.final_response.getD "")
        refinement_attempts := s.refinement_attempts + 1 } := rfl

theorem evaluation_node_some (s : AgentState) (inp : EvalInp) (ans : String)
    (hans : s.final_response = some ans) (hne : ans ≠ "") :
    evaluation_node s inp =
      { s with
        evaluation_scores := some (nodeScores s inp)
        evaluation_passed :=
          decide (7 / 10 ≤ scoresGet (nodeScores s inp) "overall" 0)
        response_history := s.response_history ++
          [(ans, scoresGet (nodeScores s inp) "overall" 0)] } := by
  simp only [evaluation_node, hans, Option.getD]
  rw [if_neg hne]

theorem nodeScores_congr (t s : AgentState) (inp : EvalInp)
    (h1 : t.course_content_found = s.course_content_found)
    (h2 : t.web_search_citations = s.web_search_citations)
    (h3 : t.refined_query = s.refined_query) (h4 : t.query = s.query)
    (h5 : t.final_response = s.final_response) :
    nodeScores t inp = nodeScores s inp := by
  simp only [nodeScores, getRefinedQuery, h1, h2, h3, h4, h5]

theorem evaluation_node_view (s : AgentState) (i : EvalInp) :
    (evaluation_node s i).web_search_citations = s.web_search_citations ∧
    (evaluation_node s i).refined_query = s.refined_query ∧
    (evaluation_node s i).query = s.query := by
  simp only [evaluation_node]
  split <;> exact ⟨rfl, rfl, rfl⟩

theorem refinement_node_view (s : AgentState) (l : Option String) :
    (refinement_node s l).web_search_citations = s.web_search_citations ∧
    (refinement_node s l).refined_query = s.refined_query ∧
    (refinement_node s l).query = s.query := ⟨rfl, rfl, rfl⟩

/-- The evaluation-refinement loop when every refinement call errors and
the (deterministic, answer-dependent) evaluation keeps failing: after the
remaining `j` refinement passes the turn ends at `END` with the counter at
3 and the untouched answer behind the router's disclaimer prefix. -/
theorem c10_loop (o : TurnOracle) (s : AgentState) (ans : String)
    (hne : ans ≠ "")
    (hrefine : ∀ i, o.refineLLM i = none)
    (hconst : ∀ i, o.evalInp i = o.evalInp 0)
    (hfail : scoresGet (nodeScores s (o.evalInp 0)) "overall" 0 < 7 / 10)
    (hsfr : s.final_response = some ans) :
    ∀ j : Nat, j ≤ 3 → ∀ t : AgentState,
      t.refinement_attempts = 3 - j →
      t.course_content_found = s.course_content_found →
      t.web_search_citations = s.web_search_citations →
      t.refined_query = s.refined_query →
      t.query = s.query →
      t.final_response = some ans →
      (run o (2 * j + 1) Node.evaluation t).node = Node.done ∧
      (run o (2 * j + 1) Node.evaluation t).state.refinement_attempts = 3 ∧
      (run o (2 * j + 1) Node.evaluation t).state.final_response =
        some (disclaimerText ++ ans) := by
  intro j
  induction j with
  | zero =>
    intro _ t h3 hc hw hr hq hfr
    have hSC : nodeScores t (o.evalInp t.refinement_attempts) =
        nodeScores s (o.evalInp 0) := by
      rw [hconst t.refinement_attempts]
      exact nodeScores_congr t s _ hc hw hr hq (hfr.trans hsfr.symm)
    have hEval := evaluation_node_some t
      (o.evalInp t.refinement_attempts) ans hfr hne
    have hpassed : (evaluation_node t
        (o.evalInp t.refinement_attempts)).evaluation_passed = false := by
      rw [hEval]
      show decide (7 / 10 ≤ scoresGet
        (nodeScores t (o.evalInp t.refinement_attempts)) "overall" 0) = false
      rw [hSC]
      exact decide_eq_false (not_le.mpr hfail)
    have hatt := evaluation_node_attempts t (o.evalInp t.refinement_attempts)
    have hfr1 := (evaluation_node_frame t (o.evalInp t.refinement_attempts)).2.2
    have hge : ¬(evaluation_node t
        (o.evalInp t.refinement_attempts)).refinement_attempts < 3 := by
      rw [hatt, h3]
      omega
    have hstep : step o Node.evaluation t =
        ({ evaluation_node t (o.evalInp t.refinement_attempts) with
            final_response := some (disclaimerText ++
              (evaluation_node t
                (o.evalInp t.refinement_attempts)).final_response.getD "") },
         Node.done) := by
      simp [step, routeFrom, execNode, route_after_evaluation, hpassed, hge]
    rw [show 2 * 0 + 1 = 0 + 1 from rfl,
      run_succ o 0 Node.evaluation t (by simp), hstep]
    simp only [run]
    refine ⟨by trivial, ?_, ?_⟩
    · show (evaluation_node t
        (o.evalInp t.refinement_attempts)).refinement_attempts = 3
      rw [hatt, h3]
    · show some (disclaimerText ++
        (evaluation_node t
          (o.evalInp t.refinement_attempts)).final_response.getD "") =
        some (disclaimerText ++ ans)
      rw [hfr1, hfr]
      rfl
  | succ j ih =>
    intro hj t h3 hc hw hr hq hfr
    have hSC : nodeScores t (o.evalInp t.refinement_attempts) =
        nodeScores s (o.evalInp 0) := by
      rw [hconst t.refinement_attempts]
      exact nodeScores_congr t s _ hc hw hr hq (hfr.trans hsfr.symm)
    have hEval := evaluation_node_some t
      (o.evalInp t.refinement_attempts) ans hfr hne
    have hpassed : (evaluation_node t
        (o.evalInp t.refinement_attempts)).evaluation_passed = false := by
      rw [hEval]
      show decide (7 / 10 ≤ scoresGet
        (nodeScores t (o.evalInp t.refinement_attempts)) "overall" 0) = false
      rw [hSC]
      exact decide_eq_false (not_le.mpr hfail)
    have hatt := evaluation_node_attempts t (o.evalInp t.refinement_attempts)
    have hlt : (evaluation_node t
        (o.evalInp t.refinement_attempts)).refinement_attempts < 3 := by
      rw [hatt, h3]
      omega
    have hstep : step o Node.evaluation t =
        (evaluation_node t (o.evalInp t.refinement_attempts),
         Node.refinement) := by
      simp [step, routeFrom, execNode, route_after_evaluation, hpassed, hlt]
    rw [show 2 * (j + 1) + 1 = ((2 * j + 1) + 1) + 1 from by ring,
      run_succ o ((2 * j + 1) + 1) Node.evaluation t (by simp), hstep]
    -- the refinement pass: the call errors, the answer is kept
    set s1 := evaluation_node t (o.evalInp t.refinement_attempts) with hs1
    have hs1att : s1.refinement_attempts = 3 - (j + 1) := by
      rw [hs1, hatt, h3]
    have hs1fr : s1.final_response = some ans := by
      rw [hs1, (evaluation_node_frame t _).2.2, hfr]
    have hstep2 : step o Node.refinement s1 =
        (refinement_node s1 none, Node.evaluation) := by
      simp [step, routeFrom, execNode, hrefine]
    rw [run_succ o (2 * j + 1) Node.refinement s1 (by simp), hstep2]
    have hview1 := evaluation_node_view t (o.evalInp t.refinement_attempts)
    have happly := ih (by omega) (refinement_node s1 none)
      (by rw [refinement_node_attempts, hs1att]; omega)
      (by rw [(refinement_node_frame s1 none).1, hs1,
              (evaluation_node_frame t _).1, hc])
      (by rw [(refinement_node_view s1 none).1, hs1, hview1.1, hw])
      (by rw [(refinement_node_view s1 none).2.1, hs1, hview1.2.1, hr])
      (by rw [(refinement_node_view s1 none).2.2, hs1, hview1.2.2, hq])
      (by rw [refinement_node_none]
          show some (s1.final_response.getD "") = some ans
          rw [hs1fr]
          rfl)
    exact ⟨happly.1, happly.2.1, happly.2.2⟩

/-- C10.  If the completion service errors during a refinement pass
(`llm = none`), `refinement_node` returns the input answer unchanged —
`final_response` after the pass equals `final_response` before it — while
`refinement_attempts` is still incremented by one.  Hence a turn sitting
at evaluation with the generated answer and counter 0, whose refinement
calls always fail (so the answer, and with it the deterministic
evaluation outcome, never changes), terminates after exactly 3 refinement
attempts still carrying the original answer (behind the router's
disclaimer prefix). -/
theorem C10_refinement_error_keeps_answer (o : TurnOracle) (s : AgentState)
    (ans : String) (hans : s.final_response = some ans) (hne : ans ≠ "")
    (h0 : s.refinement_attempts = 0)
    (hrefine : ∀ i, o.refineLLM i = none)
    (hconst : ∀ i, o.evalInp i = o.evalInp 0)
    (hfail : scoresGet (nodeScores s (o.evalInp 0)) "overall" 0 < 7 / 10) :
    (∀ (t : AgentState) (r : String), t.final_response = some r →
      (refinement_node t none).final_response = t.final_response ∧
      (refinement_node t none).refinement_attempts =
        t.refinement_attempts + 1) ∧
    (run o 7 Node.evaluation s).node = Node.done ∧
    (run o 7 Node.evaluation s).state.refinement_attempts = 3 ∧
    (run o 7 Node.evaluation s).state.final_response =
      some (disclaimerText ++ ans) := by
  have hloop := c10_loop o s ans hne hrefine hconst hfail hans 3 (by omega) s
    (by omega) rfl rfl rfl rfl hans
  refine ⟨?_, hloop.1, hloop.2.1, hloop.2.2⟩
  intro t r htr
  rw [refinement_node_none]
  refine ⟨?_, rfl⟩
  show some (t.final_response.getD "") = t.final_response
  rw [htr]
  rfl

/-- State at evaluation entry for the C10 witness: web path, generated
answer present, counter 0. -/
def evalEntryState : AgentState :=
  { initState0 with
    refined_query := some "What is NeuroQuest?"
    final_response := some "Answer text." }

/-- Oracle for the C10 witness: every evaluation call hits the caught
exception path (neutral 0.5 scores, below the 0.70 threshold) and every
refinement call errors. -/
def oracleEvalFail : TurnOracle :=
  { oracle0 with evalInp := fun _ => { failed := true } }

theorem evalEntry_overall_fails :
    scoresGet (nodeScores evalEntryState (oracleEvalFail.evalInp 0))
      "overall" 0 < 7 / 10 := by
  have hsc : nodeScores evalEntryState (oracleEvalFail.evalInp 0) =
      evaluate_web_response { failed := true } "What is NeuroQuest?"
        "Answer text." [] := rfl
  rw [hsc]
  have hw : evaluate_web_response { failed := true } "What is NeuroQuest?"
      "Answer text." [] =
      [("relevance", 1 / 2), ("readability", 1 / 2), ("coherence", 1 / 2),
       ("coverage", 1 / 2), ("credibility", 1 / 2), ("consensus", 1 / 2),
       ("consistency", 1 / 2), ("overall", 1 / 2)] := rfl
  rw [hw]
  have hg : scoresGet
      [("relevance", (1 : ℚ) / 2), ("readability", 1 / 2), ("coherence", 1 / 2),
       ("coverage", 1 / 2), ("credibility", 1 / 2), ("consensus", 1 / 2),
       ("consistency", 1 / 2), ("overall", 1 / 2)] "overall" 0 = 1 / 2 := by
    simp [scoresGet]
  rw [hg]
  norm_num

/-- C10 witness: a concrete evaluation-entry state whose refinement calls
all error and whose evaluations all fail. -/
theorem C10_witness :
    evalEntryState.final_response = some "Answer text." ∧
    "Answer text." ≠ "" ∧
    evalEntryState.refinement_attempts = 0 ∧
    (∀ i, oracleEvalFail.refineLLM i = none) ∧
    (∀ i, oracleEvalFail.evalInp i = oracleEvalFail.evalInp 0) ∧
    scoresGet (nodeScores evalEntryState (oracleEvalFail.evalInp 0))
      "overall" 0 < 7 / 10 ∧
    (run oracleEvalFail 7 Node.evaluation evalEntryState).state.final_response =
      some (disclaimerText ++ "Answer text.") :=
  ⟨rfl, by decide, rfl, fun _ => rfl, fun _ => rfl, evalEntry_overall_fails,
   (C10_refinement_error_keeps_answer oracleEvalFail evalEntryState
      "Answer text." rfl (by decide) rfl (fun _ => rfl) (fun _ => rfl)
      evalEntry_overall_fails).2.2.2⟩

end Prism
